import Mathlib

/-!
Verification of the PaymentVoucherSystem approval state machine and
document-numbering engine.

The definitions below are a shallow embedding of the Python source:

* `src/workflow/state_machine.py` — `VoucherStateMachine` (transition table,
  `can_transition`, `transition`, `generate_pv_number`, `generate_pf_number`,
  `get_next_approver`, `_get_level_from_status`) and
  `FormStateMachine.STATE_TRANSITIONS`.
* `src/vouchers/models.py` — status choices, the nullable `pv_number` /
  `pf_number` columns.
* `src/accounts/models.py` — the `User` fields consulted by the machine and
  `User.Meta.ordering = ['username']` (which fixes the meaning of `.first()`).
* `src/vouchers/views.py` — the create views, which mint a document number at
  creation time.

Database state is modeled by the parts of the store the state machine reads
and writes: the collection of non-null document-number column values, the
user table, and the approval-history rows.  Machine integers are `Nat`;
nullable columns are `Option`; exceptions are `Except`.  Django model
equality (`user != voucher.created_by` etc.) is primary-key equality, so
users are compared by `id`.  The SQL `MAX` over a varchar column compares
strings lexicographically by character code, exactly as Lean compares
`List Char` / `String`; we implement the comparison as a boolean function on
character lists so that concrete runs evaluate inside the kernel.
-/

namespace PVS

/-- Document statuses, from `STATUS_CHOICES` in `src/vouchers/models.py`
(identical for `PaymentVoucher` and `PaymentForm`). -/
inductive Status where
  | DRAFT
  | PENDING_L2
  | PENDING_L3
  | PENDING_L4
  | PENDING_L5
  | ON_REVISION
  | APPROVED
  | REJECTED
deriving DecidableEq

/-- Workflow actions accepted by `transition` (the Python strings
`submit`, `approve`, `reject`, `return`; `return` is a Lean keyword, hence
the trailing underscore). -/
inductive Action where
  | submit
  | approve
  | reject
  | return_
deriving DecidableEq

/-- The lowercase action string used in messages. -/
def actionStr : Action → String
  | .submit => "submit"
  | .approve => "approve"
  | .reject => "reject"
  | .return_ => "return"

/-- Embedding of `action.upper()`, the value stored in the audit-history
`action` column. -/
def actionUpper : Action → String
  | .submit => "SUBMIT"
  | .approve => "APPROVE"
  | .reject => "REJECT"
  | .return_ => "RETURN"

/-- Embedding of `get_status_display()`: the human-readable labels of
`STATUS_CHOICES` in `src/vouchers/models.py`. -/
def statusDisplay : Status → String
  | .DRAFT => "Draft"
  | .PENDING_L2 => "Pending Account Supervisor"
  | .PENDING_L3 => "Pending Finance Manager"
  | .PENDING_L4 => "Pending General Manager"
  | .PENDING_L5 => "Pending Managing Director"
  | .ON_REVISION => "On Revision"
  | .APPROVED => "Approved"
  | .REJECTED => "Rejected"

/-- The fields of `accounts.models.User` consulted by the state machine.
`role_level` is a nullable integer column; `full_name` stands for
`get_full_name()`. -/
structure User where
  id : Nat
  username : String
  full_name : String
  role_level : Option Nat
  is_active : Bool
  email_verified : Bool
  is_approved : Bool
  signature_image : Option String
deriving DecidableEq

/-- Embedding of Django model equality (`user == other`): primary-key
equality. -/
def userEq (a b : User) : Bool :=
  a.id == b.id

/-- Embedding of `voucher.current_approver == user` for the nullable
`current_approver` column: `None` compares unequal to every user. -/
def optApproverIs (o : Option User) (u : User) : Bool :=
  match o with
  | some a => userEq a u
  | none => false

/-- Embedding of `user.get_full_name() or user.username` (the Python `or`
falls through on the empty string). -/
def displayName (u : User) : String :=
  if u.full_name = "" then u.username else u.full_name

/-- A calendar date, as used for the `payment_date` column. -/
structure Date where
  year : Nat
  month : Nat
  day : Nat
deriving DecidableEq

/-- A document: the shared shape of `PaymentVoucher` and `PaymentForm` in
`src/vouchers/models.py` (identical fields and lifecycle; `pv_number` names
the `pv_number` / `pf_number` column).  `created_at` is the creation
timestamp date, kept to state that numbering never reads it. -/
structure Voucher where
  id : Nat
  pv_number : Option String
  status : Status
  payment_date : Date
  created_at : Date
  created_by : User
  current_approver : Option User
  submitted_at : Option Nat
deriving DecidableEq

/-- One `ApprovalHistory` row (`src/workflow/models.py`), with the foreign
keys flattened to primary keys. -/
structure HistEntry where
  voucher_id : Nat
  action : String
  actor_id : Nat
  actor_role_level : Nat
  comments : String
  signature_image : Option String
deriving DecidableEq

/-- The store state the machine reads and writes: the non-null
document-number column values, the user table, the approval-history rows and
the clock (`timezone.now()`). -/
structure MachineState where
  numbers : List String
  users : List User
  history : List HistEntry
  now : Nat
deriving DecidableEq

/-! ### Decimal formatting: `strftime('%y%m')`, `f"{n:04d}"`, `int(s)` -/

/-- Fueled decimal-digit expansion (most significant digit first); the fuel
only forces termination, `decimalDigits` below supplies enough of it. -/
def digitsAux : Nat → Nat → List Char
  | 0, _ => []
  | fuel + 1, n =>
    if n < 10 then [Nat.digitChar n]
    else digitsAux fuel (n / 10) ++ [Nat.digitChar (n % 10)]

/-- The decimal digits of `n`, as characters, most significant first: the
characters of Python `str(n)` for a non-negative integer. -/
def decimalDigits (n : Nat) : List Char :=
  digitsAux (n + 1) n

/-- Left-pad a digit list with `'0'` to width `w`: the padding performed by
Python `f"{n:0wd}"`. -/
def zfill (w : Nat) (l : List Char) : List Char :=
  List.replicate (w - l.length) '0' ++ l

/-- Embedding of `f"{n:02d}"`. -/
def pad2 (n : Nat) : String :=
  String.mk (zfill 2 (decimalDigits n))

/-- Embedding of `f"{n:04d}"`. -/
def pad4 (n : Nat) : String :=
  String.mk (zfill 4 (decimalDigits n))

/-- Embedding of `date.strftime('%y%m')`: two-digit year (`year mod 100`)
followed by the two-digit zero-padded month. -/
def strftime_yymm (d : Date) : String :=
  pad2 (d.year % 100) ++ pad2 d.month

/-- Embedding of Python `int(s)` on a string of decimal digits. -/
def parseNat (cs : List Char) : Nat :=
  cs.foldl (fun a c => 10 * a + (c.toNat - 48)) 0

/-- Embedding of Python `s.split('-')` on the character list of `s`. -/
def splitDash : List Char → List (List Char)
  | [] => [[]]
  | c :: rest =>
    match splitDash rest with
    | [] => [[]]
    | p :: ps => if c = '-' then [] :: p :: ps else (c :: p) :: ps

/-- Embedding of Django `field__startswith=p` / Python `s.startswith(p)`. -/
def startswith (s p : String) : Bool :=
  p.data.isPrefixOf s.data

/-- Lexicographic character-list comparison by character code: the order SQL
uses to compute `MAX` over a varchar column (and the order of Python string
comparison for these ASCII strings). -/
def listLtb : List Char → List Char → Bool
  | [], [] => false
  | [], _ :: _ => true
  | _ :: _, [] => false
  | a :: as, b :: bs => if a < b then true else if b < a then false else listLtb as bs

/-- Embedding of `.aggregate(Max('pv_number'))['pv_number__max']`: the
lexicographically greatest string in the list, `None` on the empty set. -/
def maxString : List String → Option String :=
  List.foldl (fun acc s =>
    match acc with
    | none => some s
    | some m => if listLtb m.data s.data then some s else some m) none

/-- Python falsiness of a nullable string field (`if not voucher.pv_number`):
true on `None` and on the empty string. -/
def strFalsy : Option String → Bool
  | none => true
  | some s => s == ""

namespace VoucherStateMachine

/-- Embedding of `VoucherStateMachine.STATE_TRANSITIONS`
(`src/workflow/state_machine.py` lines 25-54): the nested dict as a partial
map from (status, action) to the destination status. -/
def STATE_TRANSITIONS : Status → Action → Option Status
  | .DRAFT, .submit => some .PENDING_L2
  | .PENDING_L2, .approve => some .PENDING_L3
  | .PENDING_L2, .reject => some .REJECTED
  | .PENDING_L2, .return_ => some .ON_REVISION
  | .PENDING_L3, .approve => some .PENDING_L4
  | .PENDING_L3, .reject => some .REJECTED
  | .PENDING_L3, .return_ => some .ON_REVISION
  | .PENDING_L4, .approve => some .PENDING_L5
  | .PENDING_L4, .reject => some .REJECTED
  | .PENDING_L4, .return_ => some .ON_REVISION
  | .PENDING_L5, .approve => some .APPROVED
  | .PENDING_L5, .reject => some .REJECTED
  | .PENDING_L5, .return_ => some .ON_REVISION
  | .ON_REVISION, .submit => some .PENDING_L2
  | _, _ => none

/-- Embedding of `VoucherStateMachine._get_level_from_status`. -/
def _get_level_from_status : Status → Option Nat
  | .PENDING_L2 => some 2
  | .PENDING_L3 => some 3
  | .PENDING_L4 => some 4
  | .PENDING_L5 => some 5
  | _ => none

/-- Embedding of the `role_map` dict inside `get_next_approver`. -/
def role_map : Status → Option Nat
  | .PENDING_L2 => some 2
  | .PENDING_L3 => some 3
  | .PENDING_L4 => some 4
  | .PENDING_L5 => some 5
  | _ => none

/-- The eligibility filter of `get_next_approver`:
`role_level=required, is_active=True, email_verified=True, is_approved=True`. -/
def eligibleFor (required : Nat) (u : User) : Bool :=
  u.role_level == some required && u.is_active && u.email_verified && u.is_approved

/-- Embedding of `QuerySet.first()` under `User.Meta.ordering = ['username']`
(`src/accounts/models.py` lines 71-73): the row with the least `username`,
keeping the earlier row on ties. -/
def firstByUsername : List User → Option User :=
  List.foldl (fun acc u =>
    match acc with
    | none => some u
    | some m => if listLtb u.username.data m.username.data then some u else some m) none

/-- Embedding of `VoucherStateMachine.get_next_approver` (lines 233-257):
maps the status to a required role level and returns the first active,
email-verified, admin-approved user with exactly that level, under the
model ordering by `username`; `None` otherwise. -/
def get_next_approver (status : Status) (users : List User) : Option User :=
  match role_map status with
  | none => none
  | some required_level => firstByUsername (users.filter (eligibleFor required_level))

/-- The reasons `can_transition` can refuse, one per `return False` site in
the source (lines 63-93). -/
inductive DenyReason where
  | actionNotAllowed (action : Action) (status : Status)
  | notCreator
  | notAssignedApprover
  | roleLevelMismatch (userLevel : Option Nat) (expected : Nat)
deriving DecidableEq

/-- Rendering of a nullable role level inside an f-string (`None` prints as
`"None"`). -/
def optLevelStr : Option Nat → String
  | none => "None"
  | some n => String.mk (decimalDigits n)

/-- The error-message strings of `can_transition` (the quote characters of
the original f-strings are omitted). -/
def denyMsg : DenyReason → String
  | .actionNotAllowed a s =>
      "Action " ++ actionStr a ++ " not allowed for status " ++ statusDisplay s
  | .notCreator => "Only the creator can submit this voucher"
  | .notAssignedApprover => "You are not the assigned approver for this voucher"
  | .roleLevelMismatch l e =>
      "Your role level (" ++ optLevelStr l ++ ") does not match required level (" ++
        String.mk (decimalDigits e) ++ ")"

/-- The checks of `VoucherStateMachine.can_transition` (lines 63-93), in
source order: transition-table membership; for `submit` the creator check;
otherwise the assigned-approver check with the shared-inbox special case
(any level-5 user may act at `PENDING_L5`), then the exact role-level
check.  Returns the first failing check, or `none` when the action is
allowed. -/
def canTransitionDeny (voucher : Voucher) (action : Action) (user : User) : Option DenyReason :=
  match STATE_TRANSITIONS voucher.status action with
  | none => some (.actionNotAllowed action voucher.status)
  | some _ =>
    match action with
    | .submit =>
      if userEq user voucher.created_by then none else some .notCreator
    | _ =>
      if (if voucher.status = Status.PENDING_L5 ∧ user.role_level = some 5 then true
          else optApproverIs voucher.current_approver user) then
        match _get_level_from_status voucher.status with
        | some expected_level =>
          if user.role_level ≠ some expected_level then
            some (.roleLevelMismatch user.role_level expected_level)
          else none
        | none => none
      else some .notAssignedApprover

/-- Embedding of `VoucherStateMachine.can_transition`: the
`(can_perform, error_message)` pair returned to callers. -/
def can_transition (voucher : Voucher) (action : Action) (user : User) : Bool × Option String :=
  match canTransitionDeny voucher action user with
  | none => (true, none)
  | some r => (false, some (denyMsg r))

/-- Embedding of `VoucherStateMachine.generate_pv_number` (lines 173-198):
prefix `YYMM` from the payment date, then one more than the numeric suffix
of the greatest stored number with that prefix (`int(last_pv.split('-')[1])`),
zero-padded to four digits. -/
def generate_pv_number (numbers : List String) (voucher : Voucher) : String :=
  let pfx := strftime_yymm voucher.payment_date
  let last_pv := maxString (numbers.filter (fun s => startswith s pfx))
  let next_num :=
    match last_pv with
    | some last => parseNat ((splitDash last.data).getD 1 []) + 1
    | none => 1
  pfx ++ "-" ++ pad4 next_num

/-- Embedding of `VoucherStateMachine.generate_pf_number` (lines 200-231):
as `generate_pv_number`, but the numeric suffix of the greatest stored
number is parsed from either the legacy `YYMM-PF-NNNN` format (three
dash-separated parts) or the new `YYMM-NNNN` format. -/
def generate_pf_number (numbers : List String) (payment_form : Voucher) : String :=
  let pfx := strftime_yymm payment_form.payment_date
  let last_pf := maxString (numbers.filter (fun s => startswith s pfx))
  let next_num :=
    match last_pf with
    | some last =>
      let parts := splitDash last.data
      (if parts.length = 3 then parseNat (parts.getD 2 []) else parseNat (parts.getD 1 [])) + 1
    | none => 1
  pfx ++ "-" ++ pad4 next_num

/-- The error taxonomy of transition failures (§7 of the system design):
`transition` raises `ValueError` in the source; the constructor records
which check raised, the string the message. -/
inductive TransError where
  | IllegalTransition (msg : String)
  | UnauthorizedActor (msg : String)
  | DuplicateApproval (msg : String)
deriving DecidableEq

/-- Classification of a `can_transition` refusal into the error taxonomy:
the table check raises the illegal-transition error, the permission checks
the unauthorized-actor error. -/
def errOfDeny (r : DenyReason) : TransError :=
  match r with
  | .actionNotAllowed _ _ => .IllegalTransition (denyMsg r)
  | .notCreator => .UnauthorizedActor (denyMsg r)
  | .notAssignedApprover => .UnauthorizedActor (denyMsg r)
  | .roleLevelMismatch _ _ => .UnauthorizedActor (denyMsg r)

/-- Embedding of
`voucher.approval_history.filter(actor=user, action='APPROVE').exists()`. -/
def hasApproveEntry (history : List HistEntry) (voucher_id actor_id : Nat) : Bool :=
  history.any (fun h => h.voucher_id == voucher_id && h.actor_id == actor_id && h.action == "APPROVE")

/-- The history after the `return` purge (lines 131-134): on `return`, all
APPROVE rows of the document are deleted. -/
def purgedHistory (history : List HistEntry) (action : Action) (voucher_id : Nat) :
    List HistEntry :=
  if action = Action.return_ then
    history.filter (fun h => !(h.voucher_id == voucher_id && h.action == "APPROVE"))
  else history

/-- The document after the `submit` special case (lines 136-144): on first
submission a number is minted when the column is falsy and `submitted_at` is
stamped; on resubmission only `submitted_at` is stamped. -/
def submittedVoucher (numbers : List String) (voucher : Voucher) (action : Action)
    (now : Nat) : Voucher :=
  if action = Action.submit then
    if voucher.status = Status.DRAFT then
      let voucher :=
        if strFalsy voucher.pv_number then
          { voucher with pv_number := some (generate_pv_number numbers voucher) }
        else voucher
      { voucher with submitted_at := some now }
    else if voucher.status = Status.ON_REVISION then
      { voucher with submitted_at := some now }
    else voucher
  else voucher

/-- The successful branch of `transition` (lines 127-171), after all checks
have passed, for destination status `next_state`: purge on `return`, the
`submit` special case, the status/approver update and save, and the audit
append. -/
def applyTransition (st : MachineState) (voucher : Voucher) (action : Action) (user : User)
    (comments : String) (next_state : Status) : MachineState × Voucher :=
  let history := purgedHistory st.history action voucher.id
  let voucher := submittedVoucher st.numbers voucher action st.now
  let voucher :=
    { voucher with
      status := next_state
      current_approver := get_next_approver next_state st.users }
  let numbers :=
    match voucher.pv_number with
    | some n => if n ∈ st.numbers then st.numbers else st.numbers ++ [n]
    | none => st.numbers
  let signature_image :=
    if action = Action.approve ∧ user.signature_image ≠ none then user.signature_image
    else none
  let entry : HistEntry :=
    { voucher_id := voucher.id
      action := actionUpper action
      actor_id := user.id
      actor_role_level := user.role_level.getD 0
      comments := comments
      signature_image := signature_image }
  ({ st with history := history ++ [entry], numbers := numbers }, voucher)

/-- Embedding of `VoucherStateMachine.transition` (lines 95-171), an atomic
unit: re-validate via `can_transition`; reject a duplicate approval; then
execute the transition body (`applyTransition`).  The notification hook is
external and has no store effect.  Raising is returning `Except.error`; the
transaction then leaves the store untouched. -/
def transition (st : MachineState) (voucher : Voucher) (action : Action) (user : User)
    (comments : String) : Except TransError (MachineState × Voucher) :=
  match canTransitionDeny voucher action user with
  | some r => Except.error (errOfDeny r)
  | none =>
    if action = Action.approve ∧ hasApproveEntry st.history voucher.id user.id then
      Except.error (.DuplicateApproval (displayName user ++ " has already approved this voucher"))
    else
      match STATE_TRANSITIONS voucher.status action with
      | none =>
        -- unreachable: `canTransitionDeny` already required a table entry
        Except.error (errOfDeny (.actionNotAllowed action voucher.status))
      | some next_state => Except.ok (applyTransition st voucher action user comments next_state)

end VoucherStateMachine

/-- The observable outcome of one `transition` call under the
`@transaction.atomic` rollback semantics: on success the updated store and
document, on an exception the unchanged store and document together with the
error. -/
def transitionRun (st : MachineState) (voucher : Voucher) (action : Action) (user : User)
    (comments : String) : MachineState × Voucher × Option VoucherStateMachine.TransError :=
  match VoucherStateMachine.transition st voucher action user comments with
  | Except.ok (st2, v2) => (st2, v2, none)
  | Except.error e => (st, voucher, some e)

namespace FormStateMachine

/-- Embedding of `FormStateMachine.STATE_TRANSITIONS`
(`src/workflow/state_machine.py` lines 285-314). -/
def STATE_TRANSITIONS : Status → Action → Option Status
  | .DRAFT, .submit => some .PENDING_L2
  | .PENDING_L2, .approve => some .PENDING_L3
  | .PENDING_L2, .reject => some .REJECTED
  | .PENDING_L2, .return_ => some .ON_REVISION
  | .PENDING_L3, .approve => some .PENDING_L4
  | .PENDING_L3, .reject => some .REJECTED
  | .PENDING_L3, .return_ => some .ON_REVISION
  | .PENDING_L4, .approve => some .PENDING_L5
  | .PENDING_L4, .reject => some .REJECTED
  | .PENDING_L4, .return_ => some .ON_REVISION
  | .PENDING_L5, .approve => some .APPROVED
  | .PENDING_L5, .reject => some .REJECTED
  | .PENDING_L5, .return_ => some .ON_REVISION
  | .ON_REVISION, .submit => some .PENDING_L2
  | _, _ => none

end FormStateMachine

/-- The transition table exactly as the specification (§4.1) tabulates it,
written from the table of the spec, for comparison with the code tables. -/
def specTransitionTable : Status → Action → Option Status
  | .DRAFT, .submit => some .PENDING_L2
  | .ON_REVISION, .submit => some .PENDING_L2
  | .PENDING_L2, .approve => some .PENDING_L3
  | .PENDING_L3, .approve => some .PENDING_L4
  | .PENDING_L4, .approve => some .PENDING_L5
  | .PENDING_L5, .approve => some .APPROVED
  | .PENDING_L2, .reject => some .REJECTED
  | .PENDING_L3, .reject => some .REJECTED
  | .PENDING_L4, .reject => some .REJECTED
  | .PENDING_L5, .reject => some .REJECTED
  | .PENDING_L2, .return_ => some .ON_REVISION
  | .PENDING_L3, .return_ => some .ON_REVISION
  | .PENDING_L4, .return_ => some .ON_REVISION
  | .PENDING_L5, .return_ => some .ON_REVISION
  | _, _ => none

/-- Sequential first submissions: each document in turn receives a number
from `generate_pv_number` against the store, and the store gains that number
before the next document is processed (the save inside `transition`).
Returns the generated numbers in order. -/
def genNumsDocs : List Voucher → List String → List String
  | [], _ => []
  | v :: vs, nums =>
    let x := VoucherStateMachine.generate_pv_number nums v
    x :: genNumsDocs vs (nums ++ [x])

/-- Embedding of the number assignment in `VoucherCreateView.form_valid`
(`src/vouchers/views.py` lines 46-53): a new voucher is saved with
`created_by` set and `pv_number` generated immediately at creation, while
its status still holds the model default `DRAFT`. -/
def createVoucher (nums : List String) (user : User) (v : Voucher) : Voucher :=
  { v with created_by := user, pv_number := some (VoucherStateMachine.generate_pv_number nums v) }

/-- Helper naming the new-format number with a given prefix and suffix
value: `f"{prefix}-{n:04d}"`. -/
def numFor (pfx : String) (n : Nat) : String :=
  pfx ++ "-" ++ pad4 n

/-- Helper naming the legacy payment-form number format `YYMM-PF-NNNN`. -/
def legacyNumFor (pfx : String) (n : Nat) : String :=
  pfx ++ "-PF-" ++ pad4 n

/-! ### Concrete fixtures used by witnesses and counterexamples -/

/-- A creator (role level 1). -/
def demoU1 : User := ⟨1, "creator", "Alice Creator", some 1, true, true, true, none⟩

/-- An eligible level-2 approver. -/
def demoU2 : User := ⟨2, "supervisor", "Bob Supervisor", some 2, true, true, true, none⟩

/-- An eligible level-3 approver. -/
def demoU3 : User := ⟨3, "finmgr", "Cam Manager", some 3, true, true, true, none⟩

/-- An eligible level-4 approver. -/
def demoU4 : User := ⟨4, "genmgr", "Dee General", some 4, true, true, true, none⟩

/-- An eligible level-5 approver (managing director). -/
def demoU5 : User := ⟨5, "mdir", "Eve Director", some 5, true, true, true, none⟩

/-- The demo user table. -/
def demoUsers : List User := [demoU1, demoU2, demoU3, demoU4, demoU5]

/-- A freshly created voucher: status `DRAFT`, no number; payment date
January 2026, created in February 2026. -/
def demoDraftVoucher : Voucher :=
  ⟨10, none, Status.DRAFT, ⟨2026, 1, 15⟩, ⟨2026, 2, 1⟩, demoU1, none, none⟩

/-- The demo voucher once submitted and sitting at `PENDING_L2` with the
level-2 approver assigned. -/
def demoPendingL2 : Voucher :=
  ⟨10, some "2601-0001", Status.PENDING_L2, ⟨2026, 1, 15⟩, ⟨2026, 2, 1⟩, demoU1,
    some demoU2, some 100⟩

/-- The demo voucher in the terminal `APPROVED` status. -/
def demoApprovedVoucher : Voucher :=
  { demoPendingL2 with status := Status.APPROVED, current_approver := none }

/-- A store with the demo voucher submitted. -/
def demoState : MachineState :=
  ⟨["2601-0001"], demoUsers, [⟨10, "SUBMIT", 1, 1, "", none⟩], 101⟩

/-- The store after the level-2 approval of the demo voucher. -/
def demoStateAfterApprove : MachineState :=
  ⟨["2601-0001"], demoUsers,
    [⟨10, "SUBMIT", 1, 1, "", none⟩, ⟨10, "APPROVE", 2, 2, "", none⟩], 101⟩

/-- The demo voucher after the level-2 approval. -/
def demoVoucherAfterApprove : Voucher :=
  { demoPendingL2 with status := Status.PENDING_L3, current_approver := some demoU3 }

/-- A store in which the level-2 approver already has an APPROVE entry for
document 10. -/
def demoStateDup : MachineState :=
  ⟨["2601-0001"], demoUsers, [⟨10, "APPROVE", 2, 2, "", none⟩], 101⟩

/-- The demo voucher at `PENDING_L4` with two sign-offs recorded. -/
def demoPendingL4 : Voucher :=
  { demoPendingL2 with status := Status.PENDING_L4, current_approver := some demoU4 }

/-- A store holding a SUBMIT entry and two APPROVE entries for document 10. -/
def demoStateL4 : MachineState :=
  ⟨["2601-0001"], demoUsers,
    [⟨10, "SUBMIT", 1, 1, "", none⟩, ⟨10, "APPROVE", 2, 2, "", none⟩,
     ⟨10, "APPROVE", 3, 3, "", none⟩], 102⟩

/-- An empty store (no documents, demo users). -/
def demoState0 : MachineState := ⟨[], demoUsers, [], 100⟩


/-! ### Arithmetic facts about the decimal formatting helpers -/

lemma digitsAux_congr : ∀ (f g n : Nat), n < f → n < g → digitsAux f n = digitsAux g n := by
  intro f
  induction f with
  | zero => intro g n h; omega
  | succ f ih =>
    intro g n hf hg
    cases g with
    | zero => omega
    | succ g =>
      by_cases h10 : n < 10
      · simp [digitsAux, h10]
      · have hdiv : n / 10 < n := Nat.div_lt_self (by omega) (by omega)
        simp only [digitsAux, h10, if_false]
        rw [ih g (n / 10) (by omega) (by omega)]

lemma decimalDigits_eq (n : Nat) :
    decimalDigits n =
      if n < 10 then [Nat.digitChar n]
      else decimalDigits (n / 10) ++ [Nat.digitChar (n % 10)] := by
  by_cases h10 : n < 10
  · simp [decimalDigits, digitsAux, h10]
  · have hdiv : n / 10 < n := Nat.div_lt_self (by omega) (by omega)
    have h1 : digitsAux (n + 1) n = digitsAux n (n / 10) ++ [Nat.digitChar (n % 10)] := by
      simp [digitsAux, h10]
    rw [if_neg h10]
    show digitsAux (n + 1) n = decimalDigits (n / 10) ++ [Nat.digitChar (n % 10)]
    rw [h1, digitsAux_congr n (n / 10 + 1) (n / 10) (by omega) (by omega)]
    rfl

lemma decimalDigits_lt10 {n : Nat} (h : n < 10) : decimalDigits n = [Nat.digitChar n] := by
  rw [decimalDigits_eq]; simp [h]

lemma decimalDigits_ge10 {n : Nat} (h : 10 ≤ n) :
    decimalDigits n = decimalDigits (n / 10) ++ [Nat.digitChar (n % 10)] := by
  rw [decimalDigits_eq]; simp [Nat.not_lt.mpr h]

lemma digitChar_toNat : ∀ d : Nat, d < 10 → (Nat.digitChar d).toNat = 48 + d := by decide

lemma digitChar_lt_iff : ∀ d : Nat, d < 10 → ∀ e : Nat, e < 10 →
    ((Nat.digitChar d) < (Nat.digitChar e) ↔ d < e) := by decide

lemma digitChar_inj : ∀ d : Nat, d < 10 → ∀ e : Nat, e < 10 →
    Nat.digitChar d = Nat.digitChar e → d = e := by decide

lemma digitChar_not_lt_self : ∀ d : Nat, d < 10 →
    ¬ (Nat.digitChar d) < (Nat.digitChar d) := by decide

lemma digitsAux_digit_range :
    ∀ (f n : Nat), ∀ c ∈ digitsAux f n, 48 ≤ c.toNat ∧ c.toNat ≤ 57 := by
  intro f
  induction f with
  | zero => intro n c hc; simp [digitsAux] at hc
  | succ f ih =>
    intro n c hc
    by_cases h10 : n < 10
    · simp [digitsAux, h10] at hc
      subst hc
      have := digitChar_toNat n h10
      omega
    · simp only [digitsAux, h10, if_false, List.mem_append, List.mem_singleton] at hc
      rcases hc with hc | hc
      · exact ih (n / 10) c hc
      · subst hc
        have hm : n % 10 < 10 := Nat.mod_lt _ (by omega)
        have := digitChar_toNat (n % 10) hm
        omega

lemma decimalDigits_digit_range (n : Nat) :
    ∀ c ∈ decimalDigits n, 48 ≤ c.toNat ∧ c.toNat ≤ 57 :=
  digitsAux_digit_range (n + 1) n

lemma zero_char_toNat : ('0' : Char).toNat = 48 := by decide

lemma zfill_digit_range (w : Nat) (l : List Char)
    (hl : ∀ c ∈ l, 48 ≤ c.toNat ∧ c.toNat ≤ 57) :
    ∀ c ∈ zfill w l, 48 ≤ c.toNat ∧ c.toNat ≤ 57 := by
  intro c hc
  simp only [zfill, List.mem_append, List.mem_replicate] at hc
  rcases hc with ⟨-, hc⟩ | hc
  · subst hc; simp [zero_char_toNat]
  · exact hl c hc

lemma pad2_digit_range (n : Nat) :
    ∀ c ∈ (pad2 n).data, 48 ≤ c.toNat ∧ c.toNat ≤ 57 :=
  zfill_digit_range 2 _ (decimalDigits_digit_range n)

lemma pad4_digit_range (n : Nat) :
    ∀ c ∈ (pad4 n).data, 48 ≤ c.toNat ∧ c.toNat ≤ 57 :=
  zfill_digit_range 4 _ (decimalDigits_digit_range n)

lemma strftime_digit_range (d : Date) :
    ∀ c ∈ (strftime_yymm d).data, 48 ≤ c.toNat ∧ c.toNat ≤ 57 := by
  intro c hc
  rw [strftime_yymm, String.data_append, List.mem_append] at hc
  rcases hc with hc | hc
  · exact pad2_digit_range _ c hc
  · exact pad2_digit_range _ c hc

lemma dash_not_digit_range {c : Char} (h : 48 ≤ c.toNat ∧ c.toNat ≤ 57) : c ≠ '-' := by
  intro he; subst he; revert h; decide

lemma strftime_no_dash (d : Date) : '-' ∉ (strftime_yymm d).data := by
  intro hc
  exact dash_not_digit_range (strftime_digit_range d '-' hc) rfl

lemma pad4_no_dash (n : Nat) : '-' ∉ (pad4 n).data := by
  intro hc
  exact dash_not_digit_range (pad4_digit_range n '-' hc) rfl

lemma parseNat_append_singleton (l : List Char) (c : Char) :
    parseNat (l ++ [c]) = 10 * parseNat l + (c.toNat - 48) := by
  simp [parseNat, List.foldl_append]

lemma parseNat_decimalDigits (n : Nat) : parseNat (decimalDigits n) = n := by
  induction n using Nat.strong_induction_on with
  | _ n ih =>
    by_cases h10 : n < 10
    · rw [decimalDigits_lt10 h10]
      simp [parseNat, digitChar_toNat n h10]
    · rw [decimalDigits_ge10 (by omega), parseNat_append_singleton]
      have hdiv : n / 10 < n := Nat.div_lt_self (by omega) (by omega)
      rw [ih (n / 10) hdiv]
      have hm : n % 10 < 10 := Nat.mod_lt _ (by omega)
      rw [digitChar_toNat (n % 10) hm]
      omega

lemma parseNat_replicate_zero (k : Nat) (l : List Char) :
    parseNat (List.replicate k '0' ++ l) = parseNat l := by
  induction k with
  | zero => simp
  | succ k ih =>
    rw [List.replicate_succ, List.cons_append]
    show List.foldl _ (10 * 0 + ('0'.toNat - 48)) _ = _
    have h0 : 10 * 0 + ('0'.toNat - 48) = 0 := by decide
    rw [h0]
    exact ih

lemma pad4_data_def (n : Nat) : (pad4 n).data = zfill 4 (decimalDigits n) := rfl

lemma parseNat_pad4 (n : Nat) : parseNat (pad4 n).data = n := by
  rw [pad4_data_def, zfill, parseNat_replicate_zero, parseNat_decimalDigits]

/-! ### Facts about `splitDash` -/

lemma splitDash_ne_nil (l : List Char) : splitDash l ≠ [] := by
  cases l with
  | nil => simp [splitDash]
  | cons c rest =>
    simp only [splitDash]
    cases splitDash rest with
    | nil => simp
    | cons p ps =>
      by_cases hc : c = '-' <;> simp [hc]

lemma splitDash_no_dash (l : List Char) (h : '-' ∉ l) : splitDash l = [l] := by
  induction l with
  | nil => rfl
  | cons c rest ih =>
    have hc : c ≠ '-' := fun he => h (he ▸ List.mem_cons_self c rest)
    have hrest : '-' ∉ rest := fun hm => h (List.mem_cons_of_mem c hm)
    simp only [splitDash, ih hrest, if_neg hc]

lemma splitDash_append_dash (xs ys : List Char) (h : '-' ∉ xs) :
    splitDash (xs ++ '-' :: ys) = xs :: splitDash ys := by
  induction xs with
  | nil =>
    simp only [List.nil_append, splitDash]
    cases hys : splitDash ys with
    | nil => exact absurd hys (splitDash_ne_nil ys)
    | cons p ps => simp
  | cons c xs ih =>
    have hc : c ≠ '-' := fun he => h (he ▸ List.mem_cons_self c xs)
    have hxs : '-' ∉ xs := fun hm => h (List.mem_cons_of_mem c hm)
    have hrec : splitDash (xs.append ('-' :: ys)) = xs :: splitDash ys := ih hxs
    simp only [List.cons_append, splitDash, hrec, if_neg hc]

/-! ### The lexicographic string order and the SQL maximum -/

lemma listLtb_iff_lex : ∀ (a b : List Char), listLtb a b = true ↔ List.Lex (· < ·) a b := by
  intro a
  induction a with
  | nil =>
    intro b
    cases b with
    | nil =>
      simp only [listLtb]
      constructor
      · intro h; cases h
      · intro h; cases h
    | cons y ys =>
      simp only [listLtb]
      exact ⟨fun _ => List.Lex.nil, fun _ => trivial⟩
  | cons x xs ih =>
    intro b
    cases b with
    | nil =>
      simp only [listLtb]
      constructor
      · intro h; cases h
      · intro h; cases h
    | cons y ys =>
      simp only [listLtb]
      by_cases hxy : x < y
      · simp only [if_pos hxy]
        exact ⟨fun _ => List.Lex.rel hxy, fun _ => trivial⟩
      · by_cases hyx : y < x
        · simp only [if_neg hxy, if_pos hyx]
          constructor
          · intro h; cases h
          · intro h
            cases h with
            | rel h => exact absurd h hxy
            | cons h => exact absurd hyx (lt_irrefl x)
        · have hxy2 : x = y := le_antisymm (le_of_not_lt hyx) (le_of_not_lt hxy)
          subst hxy2
          simp only [if_neg hxy, if_neg hyx]
          rw [ih ys]
          constructor
          · exact fun h => List.Lex.cons h
          · intro h
            cases h with
            | rel h => exact absurd h hxy
            | cons h => exact h

lemma listLtb_iff_string_lt (s t : String) : listLtb s.data t.data = true ↔ s < t := by
  rw [listLtb_iff_lex, String.lt_iff_toList_lt]
  rfl

lemma string_lt_append_left (p : List Char) (s t : String) (h : s < t) :
    String.mk (p ++ s.data) < String.mk (p ++ t.data) := by
  rw [String.lt_iff_toList_lt] at h ⊢
  exact List.Lex.append_left _ h p

lemma maxString_absorb (x : String) :
    ∀ (l : List String), (∀ y ∈ l, y = x ∨ y < x) →
      List.foldl (fun acc s =>
        match acc with
        | none => some s
        | some m => if listLtb m.data s.data then some s else some m) (some x) l = some x := by
  intro l
  induction l with
  | nil => intro _; rfl
  | cons y l ih =>
    intro hall
    rw [List.foldl_cons]
    have hy : y = x ∨ y < x := hall y (List.mem_cons_self y l)
    have hnot : ¬ x < y := by
      rcases hy with h | h
      · subst h; exact lt_irrefl _
      · exact lt_asymm h
    have hcond : ¬ (listLtb x.data y.data = true) := by
      rw [listLtb_iff_string_lt]; exact hnot
    show List.foldl _ (if listLtb x.data y.data = true then some y else some x) l = some x
    rw [if_neg hcond]
    exact ih (fun z hz => hall z (List.mem_cons_of_mem y hz))

lemma maxString_go (x : String) :
    ∀ (l : List String) (acc : Option String), x ∈ l → (∀ y ∈ l, y = x ∨ y < x) →
      (∀ m, acc = some m → m = x ∨ m < x) →
      List.foldl (fun acc s =>
        match acc with
        | none => some s
        | some m => if listLtb m.data s.data then some s else some m) acc l = some x := by
  intro l
  induction l with
  | nil => intro acc hx _ _; exact absurd hx (List.not_mem_nil x)
  | cons y l ih =>
    intro acc hx hall hacc
    rw [List.foldl_cons]
    have hy : y = x ∨ y < x := hall y (List.mem_cons_self y l)
    have hall2 : ∀ z ∈ l, z = x ∨ z < x := fun z hz => hall z (List.mem_cons_of_mem y hz)
    cases acc with
    | none =>
      show List.foldl _ (some y) l = some x
      rcases List.mem_cons.mp hx with hxy | hxl
      · subst hxy
        exact maxString_absorb x l hall2
      · exact ih (some y) hxl hall2 (fun m hm => by cases hm; exact hy)
    | some m =>
      have hm0 : m = x ∨ m < x := hacc m rfl
      show List.foldl _ (if listLtb m.data y.data = true then some y else some m) l = some x
      by_cases hlt : listLtb m.data y.data = true
      · rw [if_pos hlt]
        rcases List.mem_cons.mp hx with hxy | hxl
        · subst hxy
          exact maxString_absorb x l hall2
        · exact ih (some y) hxl hall2 (fun m2 hm2 => by cases hm2; exact hy)
      · rw [if_neg hlt]
        rcases List.mem_cons.mp hx with hxy | hxl
        · subst hxy
          rcases hm0 with hm | hm
          · subst hm
            exact maxString_absorb m l hall2
          · exact absurd ((listLtb_iff_string_lt m x).mpr hm) hlt
        · exact ih (some m) hxl hall2 (fun m2 hm2 => by cases hm2; exact hm0)

lemma maxString_eq_of_greatest (l : List String) (x : String) (hx : x ∈ l)
    (hmax : ∀ y ∈ l, y = x ∨ y < x) : maxString l = some x :=
  maxString_go x l none hx hmax (by intro m hm; cases hm)

/-! ### The four-digit padded representation and its ordering -/

lemma pad4_data (n : Nat) (h : n ≤ 9999) :
    (pad4 n).data =
      [Nat.digitChar (n / 1000), Nat.digitChar (n / 100 % 10),
       Nat.digitChar (n / 10 % 10), Nat.digitChar (n % 10)] := by
  rw [pad4_data_def]
  by_cases h1 : n < 10
  · rw [decimalDigits_lt10 h1]
    have e3 : n / 1000 = 0 := by omega
    have e2 : n / 100 % 10 = 0 := by omega
    have e1 : n / 10 % 10 = 0 := by omega
    have e0 : n % 10 = n := by omega
    rw [e3, e2, e1, e0]
    rfl
  · by_cases h2 : n < 100
    · rw [decimalDigits_ge10 (by omega), decimalDigits_lt10 (by omega : n / 10 < 10)]
      have e3 : n / 1000 = 0 := by omega
      have e2 : n / 100 % 10 = 0 := by omega
      have e1 : n / 10 % 10 = n / 10 := by omega
      rw [e3, e2, e1]
      rfl
    · by_cases h3 : n < 1000
      · rw [decimalDigits_ge10 (by omega),
            decimalDigits_ge10 (by omega : 10 ≤ n / 10),
            decimalDigits_lt10 (by omega : n / 10 / 10 < 10)]
        have e3 : n / 1000 = 0 := by omega
        have e2 : n / 10 / 10 = n / 100 % 10 := by omega
        have e1 : n / 10 % 10 = n / 10 % 10 := rfl
        rw [e3, e2]
        rfl
      · rw [decimalDigits_ge10 (by omega),
            decimalDigits_ge10 (by omega : 10 ≤ n / 10),
            decimalDigits_ge10 (by omega : 10 ≤ n / 10 / 10),
            decimalDigits_lt10 (by omega : n / 10 / 10 / 10 < 10)]
        have e3 : n / 10 / 10 / 10 = n / 1000 := by omega
        have e2 : n / 10 / 10 % 10 = n / 100 % 10 := by omega
        rw [e3, e2]
        rfl

lemma pad4_lex (a b : Nat) (hab : a < b) (hb : b ≤ 9999) :
    List.Lex (· < ·) (pad4 a).data (pad4 b).data := by
  have ha : a ≤ 9999 := by omega
  rw [pad4_data a ha, pad4_data b hb]
  have hd3 : a / 1000 < 10 := by omega
  have hd3b : b / 1000 < 10 := by omega
  have hd2 : a / 100 % 10 < 10 := by omega
  have hd2b : b / 100 % 10 < 10 := by omega
  have hd1 : a / 10 % 10 < 10 := by omega
  have hd1b : b / 10 % 10 < 10 := by omega
  have hd0 : a % 10 < 10 := by omega
  have hd0b : b % 10 < 10 := by omega
  rcases Nat.lt_trichotomy (a / 1000) (b / 1000) with h3 | h3 | h3
  · exact List.Lex.rel ((digitChar_lt_iff _ hd3 _ hd3b).mpr h3)
  · rw [h3]
    apply List.Lex.cons
    rcases Nat.lt_trichotomy (a / 100 % 10) (b / 100 % 10) with h2 | h2 | h2
    · exact List.Lex.rel ((digitChar_lt_iff _ hd2 _ hd2b).mpr h2)
    · rw [h2]
      apply List.Lex.cons
      rcases Nat.lt_trichotomy (a / 10 % 10) (b / 10 % 10) with h1 | h1 | h1
      · exact List.Lex.rel ((digitChar_lt_iff _ hd1 _ hd1b).mpr h1)
      · rw [h1]
        apply List.Lex.cons
        have h0 : a % 10 < b % 10 := by omega
        exact List.Lex.rel ((digitChar_lt_iff _ hd0 _ hd0b).mpr h0)
      · omega
    · omega
  · omega

lemma numFor_data (pfx : String) (n : Nat) :
    (numFor pfx n).data = pfx.data ++ '-' :: (pad4 n).data := by
  show (pfx ++ "-" ++ pad4 n).data = _
  rw [String.data_append, String.data_append]
  simp

lemma string_eq_of_data_eq (s : String) (l : List Char) (h : s.data = l) :
    s = String.mk l := by
  cases s
  simp only at h
  rw [h]

lemma numFor_lt (pfx : String) (a b : Nat) (hab : a < b) (hb : b ≤ 9999) :
    numFor pfx a < numFor pfx b := by
  have h := pad4_lex a b hab hb
  have h2 : String.mk (pfx.data ++ '-' :: (pad4 a).data) <
      String.mk (pfx.data ++ '-' :: (pad4 b).data) := by
    rw [String.lt_iff_toList_lt]
    exact List.Lex.append_left _ (List.Lex.cons h) pfx.data
  rw [string_eq_of_data_eq _ _ (numFor_data pfx a), string_eq_of_data_eq _ _ (numFor_data pfx b)]
  exact h2

lemma numFor_inj (pfx : String) (a b : Nat) (h : numFor pfx a = numFor pfx b) : a = b := by
  have hd : (numFor pfx a).data = (numFor pfx b).data := by rw [h]
  rw [numFor_data, numFor_data] at hd
  have hp : (pad4 a).data = (pad4 b).data := by
    have := List.append_cancel_left hd
    exact List.cons.inj this |>.2
  calc a = parseNat (pad4 a).data := (parseNat_pad4 a).symm
    _ = parseNat (pad4 b).data := by rw [hp]
    _ = b := parseNat_pad4 b

lemma isPrefixOf_append_self : ∀ (p t : List Char), p.isPrefixOf (p ++ t) = true := by
  intro p
  induction p with
  | nil => intro t; cases t <;> rfl
  | cons c p ih => intro t; simp [List.isPrefixOf, ih]

lemma numFor_startswith (pfx : String) (n : Nat) : startswith (numFor pfx n) pfx = true := by
  rw [startswith, numFor_data]
  exact isPrefixOf_append_self _ _

lemma splitDash_numFor (pfx : String) (n : Nat) (hpfx : '-' ∉ pfx.data) :
    splitDash (numFor pfx n).data = [pfx.data, (pad4 n).data] := by
  rw [numFor_data, splitDash_append_dash _ _ hpfx, splitDash_no_dash _ (pad4_no_dash n)]

/-! ### Facts about `firstByUsername` (the `.first()` of the approver query) -/

lemma firstByUsername_some_ne_none :
    ∀ (l : List User) (m : User),
      List.foldl (fun acc u =>
        match acc with
        | none => some u
        | some m => if listLtb u.username.data m.username.data then some u else some m)
        (some m) l ≠ none := by
  intro l
  induction l with
  | nil => intro m h; cases h
  | cons y l ih =>
    intro m
    rw [List.foldl_cons]
    show List.foldl _ (if listLtb y.username.data m.username.data = true then some y else some m) l ≠ none
    by_cases hlt : listLtb y.username.data m.username.data = true
    · rw [if_pos hlt]; exact ih y
    · rw [if_neg hlt]; exact ih m

lemma firstByUsername_none_iff (l : List User) :
    VoucherStateMachine.firstByUsername l = none ↔ l = [] := by
  cases l with
  | nil => simp [VoucherStateMachine.firstByUsername]
  | cons y l =>
    constructor
    · intro h
      exfalso
      apply firstByUsername_some_ne_none l y
      rw [← h]
      rfl
    · intro h; cases h

lemma firstByUsername_mem :
    ∀ (l : List User) (acc : Option User) (u : User),
      List.foldl (fun acc u =>
        match acc with
        | none => some u
        | some m => if listLtb u.username.data m.username.data then some u else some m)
        acc l = some u → acc = some u ∨ u ∈ l := by
  intro l
  induction l with
  | nil => intro acc u h; exact Or.inl h
  | cons y l ih =>
    intro acc u h
    rw [List.foldl_cons] at h
    cases acc with
    | none =>
      rcases ih (some y) u h with h2 | h2
      · cases h2; exact Or.inr (List.mem_cons_self y l)
      · exact Or.inr (List.mem_cons_of_mem y h2)
    | some m =>
      by_cases hlt : listLtb y.username.data m.username.data = true
      · rw [show (List.foldl _ (if listLtb y.username.data m.username.data = true then some y
            else some m) l = some u) ↔ (List.foldl (fun acc u =>
              match acc with
              | none => some u
              | some m => if listLtb u.username.data m.username.data then some u else some m)
              (some y) l = some u) from by rw [if_pos hlt]] at h
        rcases ih (some y) u h with h2 | h2
        · cases h2; exact Or.inr (List.mem_cons_self y l)
        · exact Or.inr (List.mem_cons_of_mem y h2)
      · rw [show (List.foldl _ (if listLtb y.username.data m.username.data = true then some y
            else some m) l = some u) ↔ (List.foldl (fun acc u =>
              match acc with
              | none => some u
              | some m => if listLtb u.username.data m.username.data then some u else some m)
              (some m) l = some u) from by rw [if_neg hlt]] at h
        rcases ih (some m) u h with h2 | h2
        · exact Or.inl h2
        · exact Or.inr (List.mem_cons_of_mem y h2)

lemma firstByUsername_min :
    ∀ (l : List User) (acc : Option User) (u : User),
      List.foldl (fun acc u =>
        match acc with
        | none => some u
        | some m => if listLtb u.username.data m.username.data then some u else some m)
        acc l = some u →
      (∀ v ∈ l, ¬ v.username < u.username) ∧
        (∀ m, acc = some m → ¬ m.username < u.username) := by
  intro l
  induction l with
  | nil =>
    intro acc u h
    refine ⟨?_, ?_⟩
    · intro v hv; cases hv
    · intro m hm
      rw [hm] at h
      cases h
      exact lt_irrefl _
  | cons y l ih =>
    intro acc u h
    rw [List.foldl_cons] at h
    cases acc with
    | none =>
      have h2 : List.foldl _ (some y) l = some u := h
      have := ih (some y) u h2
      refine ⟨?_, by intro m hm; cases hm⟩
      intro v hv
      rcases List.mem_cons.mp hv with hv | hv
      · subst hv; exact this.2 v rfl
      · exact this.1 v hv
    | some m =>
      by_cases hlt : listLtb y.username.data m.username.data = true
      · have hym : y.username < m.username := (listLtb_iff_string_lt _ _).mp hlt
        have h2 : List.foldl (fun acc u =>
            match acc with
            | none => some u
            | some m => if listLtb u.username.data m.username.data then some u else some m)
            (some y) l = some u := by
          rw [← h]
          show List.foldl _ (some y) l =
            List.foldl _ (if listLtb y.username.data m.username.data = true then some y else some m) l
          rw [if_pos hlt]
        have hy := (ih (some y) u h2).2 y rfl
        refine ⟨?_, ?_⟩
        · intro v hv
          rcases List.mem_cons.mp hv with hv | hv
          · subst hv; exact hy
          · exact (ih (some y) u h2).1 v hv
        · intro m2 hm2
          cases hm2
          intro hcon
          exact lt_asymm (lt_of_le_of_lt (le_of_not_lt hy) hym) hcon
      · have hym : ¬ y.username < m.username := by
          rw [← listLtb_iff_string_lt]; simpa using hlt
        have h2 : List.foldl (fun acc u =>
            match acc with
            | none => some u
            | some m => if listLtb u.username.data m.username.data then some u else some m)
            (some m) l = some u := by
          rw [← h]
          show List.foldl _ (some m) l =
            List.foldl _ (if listLtb y.username.data m.username.data = true then some y else some m) l
          rw [if_neg hlt]
        have hm := (ih (some m) u h2).2 m rfl
        refine ⟨?_, ?_⟩
        · intro v hv
          rcases List.mem_cons.mp hv with hv | hv
          · subst hv
            intro hcon
            exact hm (lt_of_le_of_lt (le_of_not_lt hym) hcon)
          · exact (ih (some m) u h2).1 v hv
        · intro m2 hm2
          cases hm2
          exact hm

/-! ### The sequential numbering run -/

lemma filter_startswith_clean (nums0 : List String) (pfx : String)
    (h0 : ∀ s ∈ nums0, startswith s pfx = false) :
    nums0.filter (fun s => startswith s pfx) = [] := by
  rw [List.filter_eq_nil_iff]
  intro a ha
  simp [h0 a ha]

lemma filter_startswith_all (l : List String) (pfx : String)
    (h : ∀ s ∈ l, startswith s pfx = true) :
    l.filter (fun s => startswith s pfx) = l := by
  rw [List.filter_eq_self]
  intro a ha
  exact h a ha

lemma generate_pv_on_run (v : Voucher) (nums0 : List String) (k : Nat)
    (h0 : ∀ s ∈ nums0, startswith s (strftime_yymm v.payment_date) = false)
    (hk : k ≤ 9999) :
    VoucherStateMachine.generate_pv_number
      (nums0 ++ (List.range k).map (fun i => numFor (strftime_yymm v.payment_date) (i + 1))) v
      = numFor (strftime_yymm v.payment_date) (k + 1) := by
  have hfilter :
      (nums0 ++ (List.range k).map (fun i => numFor (strftime_yymm v.payment_date) (i + 1))).filter
        (fun s => startswith s (strftime_yymm v.payment_date))
        = (List.range k).map (fun i => numFor (strftime_yymm v.payment_date) (i + 1)) := by
    rw [List.filter_append, filter_startswith_clean nums0 _ h0, List.nil_append,
      filter_startswith_all]
    intro s hs
    obtain ⟨i, -, rfl⟩ := List.mem_map.mp hs
    exact numFor_startswith _ _
  simp only [VoucherStateMachine.generate_pv_number]
  cases k with
  | zero =>
    simp only [List.range_zero, List.map_nil, List.append_nil] at hfilter ⊢
    rw [hfilter]
    rfl
  | succ n =>
    have hmax :
        maxString ((List.range (n + 1)).map
          (fun i => numFor (strftime_yymm v.payment_date) (i + 1)))
          = some (numFor (strftime_yymm v.payment_date) (n + 1)) := by
      apply maxString_eq_of_greatest
      · exact List.mem_map.mpr ⟨n, List.mem_range.mpr (by omega), rfl⟩
      · intro y hy
        obtain ⟨i, hi, rfl⟩ := List.mem_map.mp hy
        have hi2 : i < n + 1 := List.mem_range.mp hi
        rcases Nat.lt_or_ge (i + 1) (n + 1) with h | h
        · exact Or.inr (numFor_lt _ _ _ h (by omega))
        · have : i + 1 = n + 1 := by omega
          exact Or.inl (by rw [this])
    rw [hfilter, hmax]
    show strftime_yymm v.payment_date ++ "-" ++
        pad4 (parseNat ((splitDash (numFor (strftime_yymm v.payment_date) (n + 1)).data).getD 1 [])
          + 1) = numFor (strftime_yymm v.payment_date) (n + 1 + 1)
    rw [splitDash_numFor _ _ (strftime_no_dash v.payment_date)]
    show strftime_yymm v.payment_date ++ "-" ++
        pad4 (parseNat (pad4 (n + 1)).data + 1) = numFor (strftime_yymm v.payment_date) (n + 1 + 1)
    rw [parseNat_pad4]
    rfl

lemma genNumsDocs_spec (y m : Nat) (nums0 : List String)
    (h0 : ∀ s ∈ nums0, startswith s (pad2 (y % 100) ++ pad2 m) = false) :
    ∀ (vs : List Voucher) (k : Nat),
      (∀ v ∈ vs, v.payment_date.year = y ∧ v.payment_date.month = m) →
      k + vs.length ≤ 9999 →
      genNumsDocs vs
        (nums0 ++ (List.range k).map (fun i => numFor (pad2 (y % 100) ++ pad2 m) (i + 1)))
        = (List.range vs.length).map (fun i => numFor (pad2 (y % 100) ++ pad2 m) (k + i + 1)) := by
  intro vs
  induction vs with
  | nil => intro k _ _; rfl
  | cons v vs ih =>
    intro k hall hlen
    have hv := hall v (List.mem_cons_self v vs)
    have hpfx : strftime_yymm v.payment_date = pad2 (y % 100) ++ pad2 m := by
      rw [strftime_yymm, hv.1, hv.2]
    simp only [List.length_cons] at hlen
    have hstep := generate_pv_on_run v nums0 k (by rw [hpfx]; exact h0) (by omega)
    rw [hpfx] at hstep
    simp only [genNumsDocs]
    rw [hstep]
    have hstore :
        (nums0 ++ (List.range k).map (fun i => numFor (pad2 (y % 100) ++ pad2 m) (i + 1))) ++
          [numFor (pad2 (y % 100) ++ pad2 m) (k + 1)]
          = nums0 ++ (List.range (k + 1)).map (fun i => numFor (pad2 (y % 100) ++ pad2 m) (i + 1)) := by
      rw [List.append_assoc, List.range_succ, List.map_append]
      rfl
    rw [hstore, ih (k + 1) (fun w hw => hall w (List.mem_cons_of_mem v hw)) (by omega)]
    show numFor (pad2 (y % 100) ++ pad2 m) (k + 1) ::
        (List.range vs.length).map (fun i => numFor (pad2 (y % 100) ++ pad2 m) (k + 1 + i + 1))
        = (List.range (vs.length + 1)).map (fun i => numFor (pad2 (y % 100) ++ pad2 m) (k + i + 1))
    rw [List.range_succ_eq_map, List.map_cons, List.map_map]
    have harg : k + 0 + 1 = k + 1 := by omega
    rw [harg]
    have hfun : ∀ i ∈ List.range vs.length,
        numFor (pad2 (y % 100) ++ pad2 m) (k + 1 + i + 1)
          = ((fun i => numFor (pad2 (y % 100) ++ pad2 m) (k + i + 1)) ∘ Nat.succ) i := by
      intro i _
      show numFor _ (k + 1 + i + 1) = numFor _ (k + (i + 1) + 1)
      have : k + 1 + i + 1 = k + (i + 1) + 1 := by omega
      rw [this]
    rw [List.map_congr_left hfun]

/-! ### Helpers for the claim theorems -/

lemma optApproverIs_iff (o : Option User) (u : User) :
    optApproverIs o u = true ↔ ∃ ap, o = some ap ∧ ap.id = u.id := by
  cases o with
  | none => simp [optApproverIs]
  | some a => simp [optApproverIs, userEq]

lemma eligibleFor_iff (lvl : Nat) (u : User) :
    VoucherStateMachine.eligibleFor lvl u = true ↔
      u.role_level = some lvl ∧ u.is_active = true ∧ u.email_verified = true ∧
        u.is_approved = true := by
  simp [VoucherStateMachine.eligibleFor, and_assoc]

lemma can_transition_true_iff (v : Voucher) (a : Action) (u : User) :
    VoucherStateMachine.can_transition v a u = (true, none) ↔
      VoucherStateMachine.canTransitionDeny v a u = none := by
  cases hd : VoucherStateMachine.canTransitionDeny v a u with
  | none => simp [VoucherStateMachine.can_transition, hd]
  | some r => simp [VoucherStateMachine.can_transition, hd]

/-- A successful `transition` call reached the success branch: the table had
an entry and the outcome is `applyTransition` with all checks passed. -/
lemma transitionRun_ok (st : MachineState) (v : Voucher) (a : Action) (u : User) (c : String)
    (h : (transitionRun st v a u c).2.2 = none) :
    ∃ ns, VoucherStateMachine.STATE_TRANSITIONS v.status a = some ns ∧
      VoucherStateMachine.canTransitionDeny v a u = none ∧
      (transitionRun st v a u c).1 = (VoucherStateMachine.applyTransition st v a u c ns).1 ∧
      (transitionRun st v a u c).2.1 = (VoucherStateMachine.applyTransition st v a u c ns).2 := by
  cases htr : VoucherStateMachine.transition st v a u c with
  | error e =>
    exfalso
    rw [transitionRun, htr] at h
    simp at h
  | ok p =>
    have hshape : ∃ ns, VoucherStateMachine.STATE_TRANSITIONS v.status a = some ns ∧
        VoucherStateMachine.canTransitionDeny v a u = none ∧
        p = VoucherStateMachine.applyTransition st v a u c ns := by
      rw [VoucherStateMachine.transition] at htr
      cases hd : VoucherStateMachine.canTransitionDeny v a u with
      | some r => rw [hd] at htr; cases htr
      | none =>
        rw [hd] at htr
        by_cases hdup : a = Action.approve ∧
            VoucherStateMachine.hasApproveEntry st.history v.id u.id
        · rw [if_pos hdup] at htr; cases htr
        · rw [if_neg hdup] at htr
          cases hl : VoucherStateMachine.STATE_TRANSITIONS v.status a with
          | none => rw [hl] at htr; cases htr
          | some ns =>
            rw [hl] at htr
            cases htr
            exact ⟨ns, rfl, rfl, rfl⟩
    obtain ⟨ns, hl, hd, hp⟩ := hshape
    refine ⟨ns, hl, hd, ?_, ?_⟩
    · rw [transitionRun, htr, hp]
    · rw [transitionRun, htr, hp]

lemma applyTransition_voucher (st : MachineState) (v : Voucher) (a : Action) (u : User)
    (c : String) (ns : Status) :
    (VoucherStateMachine.applyTransition st v a u c ns).2 =
      { VoucherStateMachine.submittedVoucher st.numbers v a st.now with
        status := ns
        current_approver := VoucherStateMachine.get_next_approver ns st.users } := by
  rfl

lemma applyTransition_history (st : MachineState) (v : Voucher) (a : Action) (u : User)
    (c : String) (ns : Status) :
    (VoucherStateMachine.applyTransition st v a u c ns).1.history =
      VoucherStateMachine.purgedHistory st.history a v.id ++
        [{ voucher_id := v.id
           action := actionUpper a
           actor_id := u.id
           actor_role_level := u.role_level.getD 0
           comments := c
           signature_image :=
             if a = Action.approve ∧ u.signature_image ≠ none then u.signature_image
             else none }] := by
  have hid : (VoucherStateMachine.submittedVoucher st.numbers v a st.now).id = v.id := by
    rw [VoucherStateMachine.submittedVoucher]
    by_cases ha : a = Action.submit
    · rw [if_pos ha]
      by_cases hs : v.status = Status.DRAFT
      · rw [if_pos hs]
        by_cases hf : strFalsy v.pv_number
        · simp [hf]
        · simp [hf]
      · rw [if_neg hs]
        by_cases hs2 : v.status = Status.ON_REVISION
        · simp [hs2]
        · simp [hs, hs2]
    · rw [if_neg ha]
  show VoucherStateMachine.purgedHistory st.history a v.id ++
      [{ voucher_id := (VoucherStateMachine.submittedVoucher st.numbers v a st.now).id
         action := actionUpper a
         actor_id := u.id
         actor_role_level := u.role_level.getD 0
         comments := c
         signature_image :=
           if a = Action.approve ∧ u.signature_image ≠ none then u.signature_image
           else none }] = _
  rw [hid]

lemma filter_purged (l : List HistEntry) (vid : Nat) :
    (l.filter (fun h => !(h.voucher_id == vid && h.action == "APPROVE"))).filter
      (fun h => h.voucher_id == vid && h.action == "APPROVE") = [] := by
  rw [List.filter_eq_nil_iff]
  intro a ha
  have h2 := List.of_mem_filter ha
  simp only [Bool.not_eq_eq_eq_not, Bool.not_true, Bool.and_eq_false_imp] at h2
  simp only [Bool.and_eq_true, beq_iff_eq, not_and]
  intro h3
  have h4 := h2
  simp only [beq_iff_eq] at h4
  intro h5
  have := h4 (by simp [h3])
  simp [h5] at this

lemma legacyNumFor_data (pfx : String) (n : Nat) :
    (legacyNumFor pfx n).data = pfx.data ++ '-' :: 'P' :: 'F' :: '-' :: (pad4 n).data := by
  show (pfx ++ "-PF-" ++ pad4 n).data = _
  rw [String.data_append, String.data_append]
  simp

lemma splitDash_legacy (pfx : String) (n : Nat) (hpfx : '-' ∉ pfx.data) :
    splitDash (legacyNumFor pfx n).data = [pfx.data, ['P', 'F'], (pad4 n).data] := by
  rw [legacyNumFor_data]
  rw [splitDash_append_dash _ _ hpfx]
  have h2 : 'P' :: 'F' :: '-' :: (pad4 n).data = ['P', 'F'] ++ '-' :: (pad4 n).data := rfl
  rw [h2, splitDash_append_dash _ _ (by decide), splitDash_no_dash _ (pad4_no_dash n)]

lemma exists_greatest_val (pfx : String) :
    ∀ (l : List String), l ≠ [] → (∀ s ∈ l, ∃ w, w ≤ 9998 ∧ s = numFor pfx w) →
      ∃ m, m ≤ 9998 ∧ numFor pfx m ∈ l ∧ ∀ s ∈ l, ∃ w, w ≤ m ∧ s = numFor pfx w := by
  intro l
  induction l with
  | nil => intro h; exact absurd rfl h
  | cons a l ih =>
    intro _ hall
    obtain ⟨w0, hw0, ha⟩ := hall a (List.mem_cons_self a l)
    cases l with
    | nil =>
      refine ⟨w0, hw0, by rw [← ha]; exact List.mem_cons_self a [], ?_⟩
      intro s hs
      rcases List.mem_singleton.mp hs with rfl
      exact ⟨w0, le_refl w0, ha⟩
    | cons b l2 =>
      obtain ⟨m, hm, hmem, hdom⟩ := ih (by simp)
        (fun s hs => hall s (List.mem_cons_of_mem a hs))
      rcases le_or_lt w0 m with hcmp | hcmp
      · refine ⟨m, hm, List.mem_cons_of_mem a hmem, ?_⟩
        intro s hs
        rcases List.mem_cons.mp hs with rfl | hs2
        · exact ⟨w0, hcmp, ha⟩
        · exact hdom s hs2
      · refine ⟨w0, hw0, by rw [← ha]; exact List.mem_cons_self a _, ?_⟩
        intro s hs
        rcases List.mem_cons.mp hs with rfl | hs2
        · exact ⟨w0, le_refl w0, ha⟩
        · obtain ⟨w, hw, rfl⟩ := hdom s hs2
          exact ⟨w, by omega, rfl⟩

/-! ### The claims -/

/-- Claim C1: the state machine transition table of both machines equals the
table of the specification: from DRAFT and ON_REVISION only `submit` (to
PENDING_L2); from each PENDING_Ln `approve` advances one level (APPROVED
from L5), `reject` goes to REJECTED, `return` to ON_REVISION; APPROVED and
REJECTED admit no actions; in particular `approve` at PENDING_L4 goes to
PENDING_L5 unconditionally. -/
theorem claim_C1_transition_table :
    ∀ (s : Status) (a : Action),
      VoucherStateMachine.STATE_TRANSITIONS s a = specTransitionTable s a ∧
      FormStateMachine.STATE_TRANSITIONS s a = specTransitionTable s a ∧
      VoucherStateMachine.STATE_TRANSITIONS Status.PENDING_L4 Action.approve =
        some Status.PENDING_L5 := by
  intro s a
  refine ⟨?_, ?_, rfl⟩ <;> cases s <;> cases a <;> rfl

/-- Claim C2: whenever the transition table has no entry for the document
status and the requested action, `transition` raises the illegal-transition
error with the action-not-allowed message and leaves the store and the
document exactly as they were: explicitly, the observable outcome is the
unchanged pair, so the status, the current approver and the number are
identical before and after and the audit history gains no entry. -/
theorem claim_C2_illegal_transition :
    ∀ (st : MachineState) (v : Voucher) (a : Action) (u : User) (c : String),
      VoucherStateMachine.STATE_TRANSITIONS v.status a = none →
      VoucherStateMachine.transition st v a u c =
        Except.error (VoucherStateMachine.TransError.IllegalTransition
          (VoucherStateMachine.denyMsg
            (VoucherStateMachine.DenyReason.actionNotAllowed a v.status))) ∧
      transitionRun st v a u c =
        (st, v, some (VoucherStateMachine.TransError.IllegalTransition
          (VoucherStateMachine.denyMsg
            (VoucherStateMachine.DenyReason.actionNotAllowed a v.status)))) ∧
      (transitionRun st v a u c).2.1.status = v.status ∧
      (transitionRun st v a u c).2.1.current_approver = v.current_approver ∧
      (transitionRun st v a u c).2.1.pv_number = v.pv_number ∧
      (transitionRun st v a u c).1.history = st.history := by
  intro st v a u c h
  have hd : VoucherStateMachine.canTransitionDeny v a u =
      some (VoucherStateMachine.DenyReason.actionNotAllowed a v.status) := by
    unfold VoucherStateMachine.canTransitionDeny
    rw [h]
  have htr : VoucherStateMachine.transition st v a u c =
      Except.error (VoucherStateMachine.TransError.IllegalTransition
        (VoucherStateMachine.denyMsg
          (VoucherStateMachine.DenyReason.actionNotAllowed a v.status))) := by
    rw [VoucherStateMachine.transition, hd]
    rfl
  have hrun : transitionRun st v a u c =
      (st, v, some (VoucherStateMachine.TransError.IllegalTransition
        (VoucherStateMachine.denyMsg
          (VoucherStateMachine.DenyReason.actionNotAllowed a v.status)))) := by
    rw [transitionRun, htr]
  exact ⟨htr, hrun, by rw [hrun], by rw [hrun], by rw [hrun], by rw [hrun]⟩

theorem claim_C2_witness :
    VoucherStateMachine.STATE_TRANSITIONS Status.APPROVED Action.approve = none ∧
    transitionRun demoState demoApprovedVoucher Action.approve demoU2 "" =
      (demoState, demoApprovedVoucher,
        some (VoucherStateMachine.TransError.IllegalTransition
          "Action approve not allowed for status Approved")) :=
  ⟨by decide,
   ((claim_C2_illegal_transition demoState demoApprovedVoucher Action.approve demoU2 ""
     (by decide)).2.1).trans (by decide)⟩

/-- Claim C6: the four-character prefix of a generated number is derived
solely from `payment_date` (two-digit year then two-digit zero-padded
month), never from the creation timestamp: changing `created_at` never
changes the generated number, the generated number always has the
payment-date prefix, and the two concrete scenarios of the claim produce
prefixes 2601 and 2603. -/
theorem claim_C6_prefix_from_payment_date :
    (∀ (nums : List String) (v : Voucher) (cd : Date),
      VoucherStateMachine.generate_pv_number nums { v with created_at := cd } =
        VoucherStateMachine.generate_pv_number nums v ∧
      VoucherStateMachine.generate_pf_number nums { v with created_at := cd } =
        VoucherStateMachine.generate_pf_number nums v) ∧
    (∀ (nums : List String) (v : Voucher), ∃ k,
      VoucherStateMachine.generate_pv_number nums v =
        strftime_yymm v.payment_date ++ "-" ++ pad4 k) ∧
    (∀ (nums : List String) (v : Voucher), ∃ k,
      VoucherStateMachine.generate_pf_number nums v =
        strftime_yymm v.payment_date ++ "-" ++ pad4 k) ∧
    VoucherStateMachine.generate_pv_number []
      { demoDraftVoucher with payment_date := ⟨2026, 1, 15⟩, created_at := ⟨2026, 2, 1⟩ } =
      "2601-0001" ∧
    VoucherStateMachine.generate_pv_number []
      { demoDraftVoucher with payment_date := ⟨2026, 3, 5⟩, created_at := ⟨2026, 1, 10⟩ } =
      "2603-0001" := by
  refine ⟨fun nums v cd => ⟨rfl, rfl⟩, fun nums v => ⟨_, rfl⟩, fun nums v => ⟨_, rfl⟩,
    by decide, by decide⟩

/-- Claim C4, counterexample: approving twice in sequence with the same
actor does not raise the duplicate-approval error on the second call.  The
first call succeeds and advances the document to `PENDING_L3`; the second
call raises, but with the unauthorized-actor validation error (the
re-check of `can_transition` fires before the duplicate check, and the
document has moved past the actor), not `DuplicateApprovalError`. -/
theorem claim_C4_counterexample :
    transitionRun demoState demoPendingL2 Action.approve demoU2 "" =
      (demoStateAfterApprove, demoVoucherAfterApprove, none) ∧
    transitionRun demoStateAfterApprove demoVoucherAfterApprove Action.approve demoU2 "" =
      (demoStateAfterApprove, demoVoucherAfterApprove,
        some (VoucherStateMachine.TransError.UnauthorizedActor
          "You are not the assigned approver for this voucher")) := by
  exact ⟨by decide, by decide⟩

/-- Claim C4 (amended): the duplicate-approval guard raises
`DuplicateApprovalError` before mutating any state whenever the actor still
passes `can_transition` for `approve` and already has an APPROVE audit entry
for the document; in the literal twice-in-sequence scenario the second call
raises the unauthorized-actor error instead, because `can_transition` is
re-validated first and the document has advanced a level (see the
counterexample), and either way the document is unchanged by the second
call. -/
theorem claim_C4_amended :
    ∀ (st : MachineState) (v : Voucher) (u : User) (c : String),
      VoucherStateMachine.canTransitionDeny v Action.approve u = none →
      VoucherStateMachine.hasApproveEntry st.history v.id u.id = true →
      transitionRun st v Action.approve u c =
        (st, v, some (VoucherStateMachine.TransError.DuplicateApproval
          (displayName u ++ " has already approved this voucher"))) := by
  intro st v u c h1 h2
  rw [transitionRun, VoucherStateMachine.transition, h1]
  rw [if_pos ⟨rfl, h2⟩]

theorem claim_C4_witness :
    VoucherStateMachine.canTransitionDeny demoPendingL2 Action.approve demoU2 = none ∧
    VoucherStateMachine.hasApproveEntry demoStateDup.history demoPendingL2.id demoU2.id = true ∧
    transitionRun demoStateDup demoPendingL2 Action.approve demoU2 "" =
      (demoStateDup, demoPendingL2, some (VoucherStateMachine.TransError.DuplicateApproval
        "Bob Supervisor has already approved this voucher")) :=
  ⟨by decide, by decide,
   (claim_C4_amended demoStateDup demoPendingL2 demoU2 "" (by decide) (by decide)).trans
     (by decide)⟩

/-- Claim C7: a successful `return` transition sets the status to
`ON_REVISION`, deletes every APPROVE audit entry of the document (none
remain afterwards, the appended entry being a RETURN entry), and keeps
every history entry that is not an APPROVE entry of this document. -/
theorem claim_C7_return_purges :
    ∀ (st : MachineState) (v : Voucher) (u : User) (c : String),
      (transitionRun st v Action.return_ u c).2.2 = none →
      (transitionRun st v Action.return_ u c).2.1.status = Status.ON_REVISION ∧
      ((transitionRun st v Action.return_ u c).1.history.filter
        (fun h => h.voucher_id == v.id && h.action == "APPROVE")) = [] ∧
      (∀ h ∈ st.history, ¬(h.voucher_id = v.id ∧ h.action = "APPROVE") →
        h ∈ (transitionRun st v Action.return_ u c).1.history) := by
  intro st v u c hok
  obtain ⟨ns, hl, hd, hst, hv⟩ := transitionRun_ok st v Action.return_ u c hok
  have hns : ns = Status.ON_REVISION := by
    cases hs : v.status <;> rw [hs] at hl <;> first | (cases hl; rfl) | cases hl
  refine ⟨?_, ?_, ?_⟩
  · rw [hv, applyTransition_voucher, hns]
  · rw [hst, applyTransition_history]
    rw [List.filter_append]
    have hpurged : VoucherStateMachine.purgedHistory st.history Action.return_ v.id =
        st.history.filter (fun h => !(h.voucher_id == v.id && h.action == "APPROVE")) := by
      rw [VoucherStateMachine.purgedHistory, if_pos rfl]
    rw [hpurged, filter_purged, List.nil_append, List.filter_eq_nil_iff]
    intro a ha
    rcases List.mem_singleton.mp ha with rfl
    show ¬(v.id == v.id && actionUpper Action.return_ == "APPROVE") = true
    intro hcon
    rw [Bool.and_eq_true] at hcon
    exact absurd hcon.2 (by decide)
  · intro h hmem hprop
    rw [hst, applyTransition_history]
    apply List.mem_append_left
    have hpurged : VoucherStateMachine.purgedHistory st.history Action.return_ v.id =
        st.history.filter (fun h => !(h.voucher_id == v.id && h.action == "APPROVE")) := by
      rw [VoucherStateMachine.purgedHistory, if_pos rfl]
    rw [hpurged]
    refine List.mem_filter.mpr ⟨hmem, ?_⟩
    cases hb : (h.voucher_id == v.id && h.action == "APPROVE") with
    | false => rfl
    | true =>
      exfalso
      rw [Bool.and_eq_true, beq_iff_eq, beq_iff_eq] at hb
      exact hprop hb

theorem claim_C7_witness :
    (transitionRun demoStateL4 demoPendingL4 Action.return_ demoU4 "rework").2.2 = none ∧
    (transitionRun demoStateL4 demoPendingL4 Action.return_ demoU4 "rework").2.1.status =
      Status.ON_REVISION ∧
    ((transitionRun demoStateL4 demoPendingL4 Action.return_ demoU4 "rework").1.history.filter
      (fun h => h.voucher_id == demoPendingL4.id && h.action == "APPROVE")) = [] := by
  have h := claim_C7_return_purges demoStateL4 demoPendingL4 demoU4 "rework" (by decide)
  exact ⟨by decide, h.1, h.2.1⟩

/-- Claim C8, counterexample: the create view
(`src/vouchers/views.py` lines 46-53) mints the PV number immediately at
creation, so a document whose status is still the model default `DRAFT`
already carries a non-null number: the claim that the number is null while
the status is DRAFT fails on the program. -/
theorem claim_C8_counterexample :
    (createVoucher [] demoU1 demoDraftVoucher).status = Status.DRAFT ∧
    (createVoucher [] demoU1 demoDraftVoucher).pv_number = some "2601-0001" := by
  exact ⟨by decide, by decide⟩

/-- Claim C8 (amended): the state machine assigns the number at the first
successful `submit` from DRAFT only when the column is still null (the
create views may already have minted one at creation, so a DRAFT document
need not have a null number); once the document holds a non-empty number,
no successful transition — including resubmission from ON_REVISION — ever
changes it; and a null number stays null except at a `submit` from DRAFT,
where `generate_pv_number` mints it. -/
theorem claim_C8_amended :
    ∀ (st : MachineState) (v : Voucher) (a : Action) (u : User) (c : String),
      (transitionRun st v a u c).2.2 = none →
      (∀ s, v.pv_number = some s → s ≠ "" →
        (transitionRun st v a u c).2.1.pv_number = some s) ∧
      (v.pv_number = none → a = Action.submit → v.status = Status.DRAFT →
        (transitionRun st v a u c).2.1.pv_number =
          some (VoucherStateMachine.generate_pv_number st.numbers v)) ∧
      (v.pv_number = none → ¬(a = Action.submit ∧ v.status = Status.DRAFT) →
        (transitionRun st v a u c).2.1.pv_number = none) := by
  intro st v a u c hok
  obtain ⟨ns, hl, hd, hst, hv⟩ := transitionRun_ok st v a u c hok
  have hpv : (transitionRun st v a u c).2.1.pv_number =
      (VoucherStateMachine.submittedVoucher st.numbers v a st.now).pv_number := by
    rw [hv, applyTransition_voucher]
  refine ⟨?_, ?_, ?_⟩
  · intro s hs hne
    rw [hpv, VoucherStateMachine.submittedVoucher]
    have hfalsy : strFalsy v.pv_number = false := by
      rw [hs, strFalsy]
      simp [hne]
    by_cases ha : a = Action.submit
    · rw [if_pos ha]
      by_cases hdr : v.status = Status.DRAFT
      · rw [if_pos hdr, hfalsy]
        simp [hs]
      · rw [if_neg hdr]
        by_cases hrev : v.status = Status.ON_REVISION
        · rw [if_pos hrev]
          exact hs
        · rw [if_neg hrev]
          exact hs
    · rw [if_neg ha]
      exact hs
  · intro hnone ha hdr
    rw [hpv, VoucherStateMachine.submittedVoucher, if_pos ha, if_pos hdr]
    have hfalsy : strFalsy v.pv_number = true := by rw [hnone]; rfl
    rw [hfalsy]
    simp
  · intro hnone hnot
    rw [hpv, VoucherStateMachine.submittedVoucher]
    by_cases ha : a = Action.submit
    · rw [if_pos ha]
      have hdr : ¬ v.status = Status.DRAFT := fun hdr => hnot ⟨ha, hdr⟩
      rw [if_neg hdr]
      by_cases hrev : v.status = Status.ON_REVISION
      · rw [if_pos hrev]
        exact hnone
      · rw [if_neg hrev]
        exact hnone
    · rw [if_neg ha]
      exact hnone

theorem claim_C8_witness :
    (transitionRun demoState0 demoDraftVoucher Action.submit demoU1 "").2.2 = none ∧
    demoDraftVoucher.pv_number = none ∧
    (transitionRun demoState0 demoDraftVoucher Action.submit demoU1 "").2.1.pv_number =
      some "2601-0001" := by
  have h := claim_C8_amended demoState0 demoDraftVoucher Action.submit demoU1 "" (by decide)
  exact ⟨by decide, rfl, (h.2.1 rfl rfl rfl).trans (by decide)⟩

/-- Claim C5: starting from a store holding no number with the month
prefix, N sequential first submissions of documents of the same kind whose
payment dates share (year, month) — each completing before the next number
is generated — produce exactly the numbers YYMM-0001 through YYMM-NNNN
(zero-padded to four digits, which is what bounds N by 9999), in order,
with no gaps and no duplicates. -/
theorem claim_C5_monotonic_numbering :
    ∀ (vs : List Voucher) (nums0 : List String) (y m : Nat),
      (∀ v ∈ vs, v.payment_date.year = y ∧ v.payment_date.month = m) →
      (∀ s ∈ nums0, startswith s (pad2 (y % 100) ++ pad2 m) = false) →
      vs.length ≤ 9999 →
      genNumsDocs vs nums0 =
        (List.range vs.length).map (fun i => numFor (pad2 (y % 100) ++ pad2 m) (i + 1)) ∧
      (genNumsDocs vs nums0).Nodup := by
  intro vs nums0 y m hall h0 hlen
  have h := genNumsDocs_spec y m nums0 h0 vs 0 hall (by omega)
  simp only [List.range_zero, List.map_nil, List.append_nil] at h
  have hshift : ∀ i ∈ List.range vs.length,
      numFor (pad2 (y % 100) ++ pad2 m) (0 + i + 1) =
        numFor (pad2 (y % 100) ++ pad2 m) (i + 1) := by
    intro i _
    have : 0 + i + 1 = i + 1 := by omega
    rw [this]
  have heq : genNumsDocs vs nums0 =
      (List.range vs.length).map (fun i => numFor (pad2 (y % 100) ++ pad2 m) (i + 1)) := by
    rw [h, List.map_congr_left hshift]
  refine ⟨heq, ?_⟩
  rw [heq]
  apply List.Nodup.map_on ?_ (List.nodup_range vs.length)
  intro i _ j _ hij
  have := numFor_inj _ _ _ hij
  omega

theorem claim_C5_witness :
    genNumsDocs [demoDraftVoucher, demoDraftVoucher, demoDraftVoucher] [] =
      ["2601-0001", "2601-0002", "2601-0003"] ∧
    (genNumsDocs [demoDraftVoucher, demoDraftVoucher, demoDraftVoucher] []).Nodup := by
  have h := claim_C5_monotonic_numbering [demoDraftVoucher, demoDraftVoucher, demoDraftVoucher]
    [] 2026 1 (by decide) (by decide) (by decide)
  exact ⟨h.1.trans (by decide), h.2⟩

/-- Claim C9: `get_next_approver` returns `None` for every status other than
PENDING_L2..L5; for PENDING_Ln it returns the first user — under the model
ordering by username, the stable deterministic order behind `.first()` —
whose role level is exactly n and whose account is active, email-verified
and admin-approved, and `None` exactly when no such user exists.  Being a
pure function of (status, user table), two calls with the same inputs
return the same result. -/
theorem claim_C9_next_approver :
    ∀ (users : List User) (s : Status),
      (VoucherStateMachine.role_map s = none →
        VoucherStateMachine.get_next_approver s users = none) ∧
      (∀ lvl, VoucherStateMachine.role_map s = some lvl →
        ((VoucherStateMachine.get_next_approver s users = none ↔
          ∀ u ∈ users, ¬(u.role_level = some lvl ∧ u.is_active = true ∧
            u.email_verified = true ∧ u.is_approved = true)) ∧
         (∀ u, VoucherStateMachine.get_next_approver s users = some u →
           u ∈ users ∧
           (u.role_level = some lvl ∧ u.is_active = true ∧ u.email_verified = true ∧
             u.is_approved = true) ∧
           ∀ w ∈ users,
             (w.role_level = some lvl ∧ w.is_active = true ∧ w.email_verified = true ∧
               w.is_approved = true) → ¬ w.username < u.username))) := by
  intro users s
  constructor
  · intro h
    rw [VoucherStateMachine.get_next_approver, h]
  · intro lvl h
    have hgna : VoucherStateMachine.get_next_approver s users =
        VoucherStateMachine.firstByUsername
          (users.filter (VoucherStateMachine.eligibleFor lvl)) := by
      rw [VoucherStateMachine.get_next_approver, h]
    constructor
    · rw [hgna, firstByUsername_none_iff, List.filter_eq_nil_iff]
      constructor
      · intro hall u hu hcon
        exact hall u hu ((eligibleFor_iff lvl u).mpr hcon)
      · intro hall u hu hcon
        exact hall u hu ((eligibleFor_iff lvl u).mp hcon)
    · intro u hu
      rw [hgna] at hu
      have hmem := firstByUsername_mem _ none u hu
      have hmin := firstByUsername_min _ none u hu
      rcases hmem with hmem | hmem
      · cases hmem
      · have h1 := List.mem_filter.mp hmem
        refine ⟨h1.1, (eligibleFor_iff lvl u).mp h1.2, ?_⟩
        intro w hw hwel
        exact hmin.1 w (List.mem_filter.mpr ⟨hw, (eligibleFor_iff lvl w).mpr hwel⟩)

theorem claim_C9_witness :
    VoucherStateMachine.role_map Status.PENDING_L2 = some 2 ∧
    VoucherStateMachine.get_next_approver Status.PENDING_L2 demoUsers = some demoU2 ∧
    demoU2 ∈ demoUsers ∧ demoU2.role_level = some 2 ∧
    VoucherStateMachine.get_next_approver Status.APPROVED demoUsers = none := by
  have h := (((claim_C9_next_approver demoUsers Status.PENDING_L2).2 2 rfl).2 demoU2 (by decide))
  exact ⟨rfl, by decide, h.1, h.2.1.1, (claim_C9_next_approver demoUsers Status.APPROVED).1 rfl⟩

lemma canTransitionDeny_nonsubmit (v : Voucher) (a : Action) (u : User) (ns : Status)
    (hns : VoucherStateMachine.STATE_TRANSITIONS v.status a = some ns)
    (ha : a ≠ Action.submit) :
    VoucherStateMachine.canTransitionDeny v a u =
      (if (if v.status = Status.PENDING_L5 ∧ u.role_level = some 5 then true
           else optApproverIs v.current_approver u) = true then
         (match VoucherStateMachine._get_level_from_status v.status with
          | some expected_level =>
            if u.role_level ≠ some expected_level then
              some (VoucherStateMachine.DenyReason.roleLevelMismatch u.role_level expected_level)
            else none
          | none => none)
       else some VoucherStateMachine.DenyReason.notAssignedApprover) := by
  unfold VoucherStateMachine.canTransitionDeny
  rw [hns]
  cases a with
  | submit => exact absurd rfl ha
  | approve => rfl
  | reject => rfl
  | return_ => rfl

lemma level_exists_nonsubmit (v : Voucher) (a : Action) (ns : Status)
    (hns : VoucherStateMachine.STATE_TRANSITIONS v.status a = some ns)
    (ha : a ≠ Action.submit) :
    ∃ n, VoucherStateMachine._get_level_from_status v.status = some n := by
  cases a with
  | submit => exact absurd rfl ha
  | approve => cases hs : v.status <;> first | exact ⟨_, rfl⟩ | (rw [hs] at hns; cases hns)
  | reject => cases hs : v.status <;> first | exact ⟨_, rfl⟩ | (rw [hs] at hns; cases hns)
  | return_ => cases hs : v.status <;> first | exact ⟨_, rfl⟩ | (rw [hs] at hns; cases hns)

lemma shared_inbox_cond_iff (v : Voucher) (u : User) :
    ((if v.status = Status.PENDING_L5 ∧ u.role_level = some 5 then true
      else optApproverIs v.current_approver u) = true) ↔
      ((∃ ap, v.current_approver = some ap ∧ ap.id = u.id) ∨
        (v.status = Status.PENDING_L5 ∧ u.role_level = some 5)) := by
  by_cases hsh : v.status = Status.PENDING_L5 ∧ u.role_level = some 5
  · simp [hsh]
  · rw [if_neg hsh, optApproverIs_iff]
    constructor
    · exact Or.inl
    · intro h2
      rcases h2 with h2 | h2
      · exact h2
      · exact absurd h2 hsh

lemma can_transition_nonsubmit_char (v : Voucher) (a : Action) (u : User) (ns : Status)
    (hns : VoucherStateMachine.STATE_TRANSITIONS v.status a = some ns)
    (ha : a ≠ Action.submit) :
    (VoucherStateMachine.can_transition v a u = (true, none) ↔
      (((∃ ap, v.current_approver = some ap ∧ ap.id = u.id) ∨
         (v.status = Status.PENDING_L5 ∧ u.role_level = some 5)) ∧
       (∃ n, VoucherStateMachine._get_level_from_status v.status = some n ∧
          u.role_level = some n))) ∧
    (¬((∃ ap, v.current_approver = some ap ∧ ap.id = u.id) ∨
        (v.status = Status.PENDING_L5 ∧ u.role_level = some 5)) →
      VoucherStateMachine.can_transition v a u =
        (false, some "You are not the assigned approver for this voucher")) ∧
    (((∃ ap, v.current_approver = some ap ∧ ap.id = u.id) ∨
       (v.status = Status.PENDING_L5 ∧ u.role_level = some 5)) →
      ∀ n, VoucherStateMachine._get_level_from_status v.status = some n →
        u.role_level ≠ some n →
        VoucherStateMachine.can_transition v a u =
          (false, some (VoucherStateMachine.denyMsg
            (VoucherStateMachine.DenyReason.roleLevelMismatch u.role_level n)))) := by
  obtain ⟨lvl, hlvl⟩ := level_exists_nonsubmit v a ns hns ha
  have hdeny := canTransitionDeny_nonsubmit v a u ns hns ha
  refine ⟨?_, ?_, ?_⟩
  · rw [can_transition_true_iff]
    by_cases hc : (if v.status = Status.PENDING_L5 ∧ u.role_level = some 5 then true
        else optApproverIs v.current_approver u) = true
    · by_cases hrl : u.role_level = some lvl
      · have hdeny2 : VoucherStateMachine.canTransitionDeny v a u = none := by
          rw [hdeny, if_pos hc, hlvl]
          show (if u.role_level ≠ some lvl then
              some (VoucherStateMachine.DenyReason.roleLevelMismatch u.role_level lvl)
            else none) = none
          rw [if_neg (by simpa using hrl)]
        rw [hdeny2]
        exact iff_of_true rfl ⟨(shared_inbox_cond_iff v u).mp hc, ⟨lvl, hlvl, hrl⟩⟩
      · have hdeny2 : VoucherStateMachine.canTransitionDeny v a u =
            some (VoucherStateMachine.DenyReason.roleLevelMismatch u.role_level lvl) := by
          rw [hdeny, if_pos hc, hlvl]
          show (if u.role_level ≠ some lvl then
              some (VoucherStateMachine.DenyReason.roleLevelMismatch u.role_level lvl)
            else none) = some (VoucherStateMachine.DenyReason.roleLevelMismatch u.role_level lvl)
          rw [if_pos hrl]
        rw [hdeny2]
        apply iff_of_false (by simp)
        intro hcon
        obtain ⟨-, n, hn, hrn⟩ := hcon
        rw [hlvl] at hn
        cases hn
        exact hrl hrn
    · have hdeny2 : VoucherStateMachine.canTransitionDeny v a u =
          some VoucherStateMachine.DenyReason.notAssignedApprover := by
        rw [hdeny, if_neg hc]
      rw [hdeny2]
      apply iff_of_false (by simp)
      intro hcon
      exact hc ((shared_inbox_cond_iff v u).mpr hcon.1)
  · intro hnot
    have hcf : ¬((if v.status = Status.PENDING_L5 ∧ u.role_level = some 5 then true
        else optApproverIs v.current_approver u) = true) :=
      fun hcc => hnot ((shared_inbox_cond_iff v u).mp hcc)
    have hdeny2 : VoucherStateMachine.canTransitionDeny v a u =
        some VoucherStateMachine.DenyReason.notAssignedApprover := by
      rw [hdeny, if_neg hcf]
    rw [VoucherStateMachine.can_transition, hdeny2]
    rfl
  · intro hor n hn hrl
    rw [hlvl] at hn
    cases hn
    have hc := (shared_inbox_cond_iff v u).mpr hor
    have hdeny2 : VoucherStateMachine.canTransitionDeny v a u =
        some (VoucherStateMachine.DenyReason.roleLevelMismatch u.role_level lvl) := by
      rw [hdeny, if_pos hc, hlvl]
      show (if u.role_level ≠ some lvl then
          some (VoucherStateMachine.DenyReason.roleLevelMismatch u.role_level lvl)
        else none) = some (VoucherStateMachine.DenyReason.roleLevelMismatch u.role_level lvl)
      rw [if_pos hrl]
    rw [VoucherStateMachine.can_transition, hdeny2]

/-- Claim C3: for every document whose status admits the requested action,
`can_transition` returns `(true, None)` exactly when: for `submit`, the
actor is the creator; for `approve`, `reject` and `return`, the actor is the
assigned `current_approver` or the document is at PENDING_L5 and the actor
holds role level 5 (the shared inbox of the top tier), and in addition the
actor's role level equals the level implied by the status (2 for
PENDING_L2, ..., 5 for PENDING_L5); each failing check returns false with
its message. -/
theorem claim_C3_can_transition :
    ∀ (v : Voucher) (a : Action) (u : User),
      VoucherStateMachine.STATE_TRANSITIONS v.status a ≠ none →
      ((VoucherStateMachine.can_transition v a u = (true, none) ↔
        (match a with
         | Action.submit => u.id = v.created_by.id
         | _ =>
           ((∃ ap, v.current_approver = some ap ∧ ap.id = u.id) ∨
             (v.status = Status.PENDING_L5 ∧ u.role_level = some 5)) ∧
           (∃ n, VoucherStateMachine._get_level_from_status v.status = some n ∧
              u.role_level = some n))) ∧
       (a = Action.submit → u.id ≠ v.created_by.id →
         VoucherStateMachine.can_transition v a u =
           (false, some "Only the creator can submit this voucher")) ∧
       (a ≠ Action.submit →
         ¬((∃ ap, v.current_approver = some ap ∧ ap.id = u.id) ∨
             (v.status = Status.PENDING_L5 ∧ u.role_level = some 5)) →
         VoucherStateMachine.can_transition v a u =
           (false, some "You are not the assigned approver for this voucher")) ∧
       (a ≠ Action.submit →
         ((∃ ap, v.current_approver = some ap ∧ ap.id = u.id) ∨
           (v.status = Status.PENDING_L5 ∧ u.role_level = some 5)) →
         ∀ n, VoucherStateMachine._get_level_from_status v.status = some n →
           u.role_level ≠ some n →
           VoucherStateMachine.can_transition v a u =
             (false, some (VoucherStateMachine.denyMsg
               (VoucherStateMachine.DenyReason.roleLevelMismatch u.role_level n))))) := by
  intro v a u h
  obtain ⟨ns, hns⟩ : ∃ ns, VoucherStateMachine.STATE_TRANSITIONS v.status a = some ns := by
    cases hx : VoucherStateMachine.STATE_TRANSITIONS v.status a with
    | none => exact absurd hx h
    | some ns => exact ⟨ns, rfl⟩
  cases a with
  | submit =>
    have hdeny : VoucherStateMachine.canTransitionDeny v Action.submit u =
        (if userEq u v.created_by then none
         else some VoucherStateMachine.DenyReason.notCreator) := by
      unfold VoucherStateMachine.canTransitionDeny
      rw [hns]
    refine ⟨?_, ?_, ?_, ?_⟩
    · rw [can_transition_true_iff, hdeny]
      show (if userEq u v.created_by = true then none
          else some VoucherStateMachine.DenyReason.notCreator) = none ↔ u.id = v.created_by.id
      by_cases hu : u.id = v.created_by.id
      · rw [if_pos (by simp [userEq, hu])]
        simp [hu]
      · rw [if_neg (by simp [userEq, hu])]
        simp [hu]
    · intro _ hne
      rw [VoucherStateMachine.can_transition, hdeny,
        if_neg (by simp [userEq]; exact hne)]
      rfl
    · intro habs
      exact absurd rfl habs
    · intro habs
      exact absurd rfl habs
  | approve =>
    have hchar := can_transition_nonsubmit_char v Action.approve u ns hns (by intro hx; cases hx)
    exact ⟨hchar.1, fun hx => absurd hx (by intro hx2; cases hx2),
      fun _ => hchar.2.1, fun _ => hchar.2.2⟩
  | reject =>
    have hchar := can_transition_nonsubmit_char v Action.reject u ns hns (by intro hx; cases hx)
    exact ⟨hchar.1, fun hx => absurd hx (by intro hx2; cases hx2),
      fun _ => hchar.2.1, fun _ => hchar.2.2⟩
  | return_ =>
    have hchar := can_transition_nonsubmit_char v Action.return_ u ns hns (by intro hx; cases hx)
    exact ⟨hchar.1, fun hx => absurd hx (by intro hx2; cases hx2),
      fun _ => hchar.2.1, fun _ => hchar.2.2⟩

theorem claim_C3_witness :
    VoucherStateMachine.STATE_TRANSITIONS demoPendingL2.status Action.approve ≠ none ∧
    VoucherStateMachine.can_transition demoPendingL2 Action.approve demoU2 = (true, none) ∧
    VoucherStateMachine.can_transition demoPendingL2 Action.approve demoU3 =
      (false, some "You are not the assigned approver for this voucher") := by
  have h := claim_C3_can_transition demoPendingL2 Action.approve demoU2 (by decide)
  have h3 := claim_C3_can_transition demoPendingL2 Action.approve demoU3 (by decide)
  refine ⟨by decide, ?_, ?_⟩
  · exact h.1.mpr ⟨Or.inl ⟨demoU2, rfl, rfl⟩, ⟨2, rfl, rfl⟩⟩
  · refine h3.2.2.1 (by intro hx; cases hx) ?_
    intro hcon
    rcases hcon with ⟨ap, hap, hid⟩ | ⟨hst, -⟩
    · cases hap
      cases hid
    · cases hst

lemma generate_pf_of_max_legacy (nums : List String) (pf : Voucher) (w : Nat)
    (hmax : maxString (nums.filter (fun s => startswith s (strftime_yymm pf.payment_date))) =
      some (legacyNumFor (strftime_yymm pf.payment_date) w)) :
    VoucherStateMachine.generate_pf_number nums pf =
      numFor (strftime_yymm pf.payment_date) (w + 1) := by
  simp only [VoucherStateMachine.generate_pf_number]
  rw [hmax]
  show strftime_yymm pf.payment_date ++ "-" ++
      pad4 ((if (splitDash (legacyNumFor (strftime_yymm pf.payment_date) w).data).length = 3
        then parseNat ((splitDash (legacyNumFor (strftime_yymm pf.payment_date) w).data).getD 2 [])
        else parseNat ((splitDash (legacyNumFor (strftime_yymm pf.payment_date) w).data).getD 1 []))
        + 1) = numFor (strftime_yymm pf.payment_date) (w + 1)
  rw [splitDash_legacy _ _ (strftime_no_dash pf.payment_date)]
  rw [if_pos (by rfl)]
  show strftime_yymm pf.payment_date ++ "-" ++
      pad4 (parseNat (pad4 w).data + 1) = numFor (strftime_yymm pf.payment_date) (w + 1)
  rw [parseNat_pad4]
  rfl

lemma generate_pf_of_max_new (nums : List String) (pf : Voucher) (w : Nat)
    (hmax : maxString (nums.filter (fun s => startswith s (strftime_yymm pf.payment_date))) =
      some (numFor (strftime_yymm pf.payment_date) w)) :
    VoucherStateMachine.generate_pf_number nums pf =
      numFor (strftime_yymm pf.payment_date) (w + 1) := by
  simp only [VoucherStateMachine.generate_pf_number]
  rw [hmax]
  show strftime_yymm pf.payment_date ++ "-" ++
      pad4 ((if (splitDash (numFor (strftime_yymm pf.payment_date) w).data).length = 3
        then parseNat ((splitDash (numFor (strftime_yymm pf.payment_date) w).data).getD 2 [])
        else parseNat ((splitDash (numFor (strftime_yymm pf.payment_date) w).data).getD 1 []))
        + 1) = numFor (strftime_yymm pf.payment_date) (w + 1)
  rw [splitDash_numFor _ _ (strftime_no_dash pf.payment_date)]
  rw [if_neg (by simp)]
  show strftime_yymm pf.payment_date ++ "-" ++
      pad4 (parseNat (pad4 w).data + 1) = numFor (strftime_yymm pf.payment_date) (w + 1)
  rw [parseNat_pad4]
  rfl

/-- Claim C10, counterexample: with a store mixing the legacy and the new
format under the same prefix, the returned number can equal a pf_number
already present: legacy strings sort above new-format strings (the
character P exceeds every digit), so the maximum is the legacy
`2601-PF-0003`, its suffix increments to 4, and `2601-0004` is already in
the store. -/
theorem claim_C10_counterexample :
    VoucherStateMachine.generate_pf_number ["2601-0004", "2601-PF-0003"] demoDraftVoucher =
      "2601-0004" ∧
    "2601-0004" ∈ ["2601-0004", "2601-PF-0003"] := by
  exact ⟨by decide, by decide⟩

/-- Claim C10 (amended): `generate_pf_number` parses the numeric suffix of
the lexicographically greatest stored number with the payment-month prefix
from either the legacy three-part `YYMM-PF-NNNN` format or the new
two-part `YYMM-NNNN` format, and returns the prefix with that suffix plus
one.  When every stored number with the prefix is in the new format with
suffix at most 9998, the returned number is distinct from every pf_number
already present; with a mix of legacy- and new-format numbers the returned
number can collide with a stored one (see the counterexample). -/
theorem claim_C10_amended :
    ∀ (nums : List String) (pf : Voucher),
      (∀ w, maxString (nums.filter (fun s => startswith s (strftime_yymm pf.payment_date))) =
          some (legacyNumFor (strftime_yymm pf.payment_date) w) →
        VoucherStateMachine.generate_pf_number nums pf =
          numFor (strftime_yymm pf.payment_date) (w + 1)) ∧
      (∀ w, maxString (nums.filter (fun s => startswith s (strftime_yymm pf.payment_date))) =
          some (numFor (strftime_yymm pf.payment_date) w) →
        VoucherStateMachine.generate_pf_number nums pf =
          numFor (strftime_yymm pf.payment_date) (w + 1)) ∧
      ((∀ s ∈ nums, startswith s (strftime_yymm pf.payment_date) = true →
          ∃ w, w ≤ 9998 ∧ s = numFor (strftime_yymm pf.payment_date) w) →
        VoucherStateMachine.generate_pf_number nums pf ∉ nums) := by
  intro nums pf
  refine ⟨fun w hmax => generate_pf_of_max_legacy nums pf w hmax,
    fun w hmax => generate_pf_of_max_new nums pf w hmax, ?_⟩
  intro hall
  cases hfil : nums.filter (fun s => startswith s (strftime_yymm pf.payment_date)) with
  | nil =>
    have hgen : VoucherStateMachine.generate_pf_number nums pf =
        numFor (strftime_yymm pf.payment_date) 1 := by
      simp only [VoucherStateMachine.generate_pf_number]
      rw [hfil]
      rfl
    rw [hgen]
    intro hmem
    have hsw : startswith (numFor (strftime_yymm pf.payment_date) 1)
        (strftime_yymm pf.payment_date) = true := numFor_startswith _ _
    have : numFor (strftime_yymm pf.payment_date) 1 ∈
        nums.filter (fun s => startswith s (strftime_yymm pf.payment_date)) :=
      List.mem_filter.mpr ⟨hmem, hsw⟩
    rw [hfil] at this
    cases this
  | cons a l =>
    have hne : nums.filter (fun s => startswith s (strftime_yymm pf.payment_date)) ≠ [] := by
      rw [hfil]
      intro hx
      cases hx
    have hallf : ∀ s ∈ nums.filter (fun s => startswith s (strftime_yymm pf.payment_date)),
        ∃ w, w ≤ 9998 ∧ s = numFor (strftime_yymm pf.payment_date) w := by
      intro s hs
      have h2 := List.mem_filter.mp hs
      exact hall s h2.1 h2.2
    obtain ⟨mx, hmx, hmem, hdom⟩ := exists_greatest_val (strftime_yymm pf.payment_date) _ hne hallf
    have hmax : maxString (nums.filter (fun s => startswith s (strftime_yymm pf.payment_date))) =
        some (numFor (strftime_yymm pf.payment_date) mx) := by
      apply maxString_eq_of_greatest _ _ hmem
      intro y hy
      obtain ⟨w, hw, rfl⟩ := hdom y hy
      rcases Nat.lt_or_ge w mx with hlt | hge
      · exact Or.inr (numFor_lt _ _ _ hlt (by omega))
      · have : w = mx := by omega
        exact Or.inl (by rw [this])
    have hgen := generate_pf_of_max_new nums pf mx hmax
    rw [hgen]
    intro hmemc
    by_cases hsw : startswith (numFor (strftime_yymm pf.payment_date) (mx + 1))
        (strftime_yymm pf.payment_date) = true
    · have hin : numFor (strftime_yymm pf.payment_date) (mx + 1) ∈
          nums.filter (fun s => startswith s (strftime_yymm pf.payment_date)) :=
        List.mem_filter.mpr ⟨hmemc, hsw⟩
      obtain ⟨w, hw, heq⟩ := hdom _ hin
      have := numFor_inj _ _ _ heq
      omega
    · exact hsw (numFor_startswith _ _)

theorem claim_C10_witness :
    VoucherStateMachine.generate_pf_number ["2601-0005"] demoDraftVoucher ∉
      (["2601-0005"] : List String) ∧
    VoucherStateMachine.generate_pf_number ["2601-0005"] demoDraftVoucher = "2601-0006" := by
  refine ⟨(claim_C10_amended ["2601-0005"] demoDraftVoucher).2.2 ?_, by decide⟩
  intro s hs hsw
  rcases List.mem_singleton.mp hs with rfl
  exact ⟨5, by decide, by decide⟩

end PVS
